import Mathlib

/-!
Cost model and row-split search of the CPU/GPU convolution planner.

Shallow embedding of `src/conv.cpp`.

* C++ `int` / `long long` values are Lean integers (`Int`), taken exactly.
* C++ `double` values are rationals (`ℚ`): every quotient is exact and
  `std::ceil` is `Int.ceil`.
* A `for` loop over a row range is a left fold over that range; the `while`
  loop of the ternary search is a function defined by well-founded recursion
  on the bracket width, so it is total by construction.
-/

namespace Conv

/-! ## Definitions translated from `conv.cpp` -/

/-- The constant `std::numeric_limits<int>::max()` of a 32-bit `int`. -/
def INT_MAX : Int := 2147483647

/-- The constant `data_size = sizeof(float)`. -/
def data_size : Int := 4

/-- Line 6: `ops_per_position = 2 * K * K - 1`. -/
def ops_per_position (K : Int) : Int := 2 * K * K - 1

/-- Line 8: `output_height = M - K + 1`. -/
def output_height (M K : Int) : Int := M - K + 1

/-- Line 9: `output_width = N - K + 1`. -/
def output_width (N K : Int) : Int := N - K + 1

/-- Line 10: `total_output_positions = output_height * output_width`. -/
def total_output_positions (M N K : Int) : Int := output_height M K * output_width N K

/-- Line 12: `gpu_output_rows = max(0, min(num_offloaded_rows - K + 1, output_height))`. -/
def gpu_output_rows (M K num_offloaded_rows : Int) : Int :=
  max 0 (min (num_offloaded_rows - K + 1) (output_height M K))

/-- Line 13: `cpu_output_rows = output_height - gpu_output_rows` (computed by the code,
not used by the returned value). -/
def cpu_output_rows (M K num_offloaded_rows : Int) : Int :=
  output_height M K - gpu_output_rows M K num_offloaded_rows

/-- Line 14: `gpu_positions = gpu_output_rows * output_width`. -/
def gpu_positions (M N K num_offloaded_rows : Int) : Int :=
  gpu_output_rows M K num_offloaded_rows * output_width N K

/-- Line 15: `cpu_positions = total_output_positions - gpu_positions`. -/
def cpu_positions (M N K num_offloaded_rows : Int) : Int :=
  total_output_positions M N K - gpu_positions M N K num_offloaded_rows

/-- Line 17: `cpu_total_ops = cpu_positions * ops_per_position`. -/
def cpu_total_ops (M N K num_offloaded_rows : Int) : Int :=
  cpu_positions M N K num_offloaded_rows * ops_per_position K

/-- Line 18: `gpu_total_ops = gpu_positions * ops_per_position`. -/
def gpu_total_ops (M N K num_offloaded_rows : Int) : Int :=
  gpu_positions M N K num_offloaded_rows * ops_per_position K

/-- Line 20: `cpu_time = double(cpu_total_ops) / cpu_ops`. -/
def cpu_time (M N K cpu_ops num_offloaded_rows : Int) : ℚ :=
  (cpu_total_ops M N K num_offloaded_rows : ℚ) / (cpu_ops : ℚ)

/-- Line 21: `gpu_compute_time = double(gpu_total_ops) / gpu_ops`. -/
def gpu_compute_time (M N K gpu_ops num_offloaded_rows : Int) : ℚ :=
  (gpu_total_ops M N K num_offloaded_rows : ℚ) / (gpu_ops : ℚ)

/-- Line 23: `rows_to_transfer = min(gpu_output_rows + K - 1, M)`. -/
def rows_to_transfer (M K num_offloaded_rows : Int) : Int :=
  min (gpu_output_rows M K num_offloaded_rows + K - 1) M

/-- Line 24: `gpu_input_data_size = rows_to_transfer * N * data_size`. -/
def gpu_input_data_size (M N K num_offloaded_rows : Int) : Int :=
  rows_to_transfer M K num_offloaded_rows * N * data_size

/-- Line 25: `gpu_output_data_size = gpu_positions * data_size`. -/
def gpu_output_data_size (M N K num_offloaded_rows : Int) : Int :=
  gpu_positions M N K num_offloaded_rows * data_size

/-- Line 27: `transfer_to_gpu_time = double(gpu_input_data_size) / bandwidth`. -/
def transfer_to_gpu_time (M N K bandwidth num_offloaded_rows : Int) : ℚ :=
  (gpu_input_data_size M N K num_offloaded_rows : ℚ) / (bandwidth : ℚ)

/-- Line 28: `transfer_from_gpu_time = double(gpu_output_data_size) / bandwidth`. -/
def transfer_from_gpu_time (M N K bandwidth num_offloaded_rows : Int) : ℚ :=
  (gpu_output_data_size M N K num_offloaded_rows : ℚ) / (bandwidth : ℚ)

/-- Line 29: `gpu_total_time = transfer_to_gpu_time + gpu_compute_time + transfer_from_gpu_time`. -/
def gpu_total_time (M N K gpu_ops bandwidth num_offloaded_rows : Int) : ℚ :=
  transfer_to_gpu_time M N K bandwidth num_offloaded_rows
    + gpu_compute_time M N K gpu_ops num_offloaded_rows
    + transfer_from_gpu_time M N K bandwidth num_offloaded_rows

/-- Lines 3-33: `estimate_exec_time`, returning
`static_cast<int>(std::ceil(std::max(cpu_time, gpu_total_time)))`. -/
def estimate_exec_time (M N K cpu_ops gpu_ops bandwidth num_offloaded_rows : Int) : Int :=
  ⌈max (cpu_time M N K cpu_ops num_offloaded_rows)
       (gpu_total_time M N K gpu_ops bandwidth num_offloaded_rows)⌉

/-- The body shared by the two scanning loops (lines 47-52 and 94-98), on the
state `(best_rows, min_time)`:
`if (time < min_time) { min_time = time; best_rows = rows; }`. -/
def scan_step (time : Int → Int) (st : Int × Int) (rows : Int) : Int × Int :=
  if time rows < st.2 then (rows, time rows) else st

/-- The loop `for (int rows = first; rows <= last; ++rows)` around `scan_step`,
started in state `st = (best_rows, min_time)`. -/
def scan (time : Int → Int) (first last : Int) (st : Int × Int) : Int × Int :=
  (List.range (last + 1 - first).toNat).foldl
    (fun s (i : Nat) => scan_step time s (first + (i : Int))) st

/-- Lines 35-56: `get_recommended_number_offloaded_rows`. -/
def get_recommended_number_offloaded_rows (M N K cpu_ops gpu_ops bandwidth : Int) : Int :=
  if M < K then 0
  else (scan (estimate_exec_time M N K cpu_ops gpu_ops bandwidth) 0 M (0, INT_MAX)).1

/-- Lines 74-87: the narrowing loop `while (right - left > 2)`, returning the
final `(left, right)`. The divisions are C++ truncating divisions. -/
def narrow (time : Int → Int) (left right : Int) : Int × Int :=
  if right - left > 2 then
    let mid1 := left + (right - left).tdiv 3
    let mid2 := right - (right - left).tdiv 3
    if time mid1 ≤ time mid2 then narrow time left mid2
    else narrow time mid1 right
  else (left, right)
termination_by (right - left).toNat
decreasing_by
  all_goals simp_wf
  all_goals
    have h3 : (right - left).tdiv 3 = (right - left) / 3 :=
      Int.tdiv_eq_ediv (by omega) (by omega)
    omega

/-- Lines 58-102: `get_recommended_number_offloaded_rows_optimized`. -/
def get_recommended_number_offloaded_rows_optimized
    (M N K cpu_ops gpu_ops bandwidth : Int) : Int :=
  if M < K then 0
  else if M < 100 then get_recommended_number_offloaded_rows M N K cpu_ops gpu_ops bandwidth
  else
    let lr := narrow (estimate_exec_time M N K cpu_ops gpu_ops bandwidth) 0 M
    (scan (estimate_exec_time M N K cpu_ops gpu_ops bandwidth) (lr.1 + 1) lr.2
      (lr.1, estimate_exec_time M N K cpu_ops gpu_ops bandwidth lr.1)).1

/-! ## Auxiliary definitions used to state and evaluate the properties -/

/-- Integer ceiling division `⌈a / b⌉` for a positive divisor `b`. -/
def ceil_div (a b : Int) : Int := -((-a) / b)

/-- The value of `estimate_exec_time` written with integer operations only
(valid for positive `cpu_ops`, `gpu_ops`, `bandwidth`); it is used to evaluate
the cost model on concrete inputs. -/
def estimate_int (M N K cpu_ops gpu_ops bandwidth num_offloaded_rows : Int) : Int :=
  max (ceil_div (cpu_total_ops M N K num_offloaded_rows) cpu_ops)
    (ceil_div
      ((gpu_input_data_size M N K num_offloaded_rows
          + gpu_output_data_size M N K num_offloaded_rows) * gpu_ops
        + gpu_total_ops M N K num_offloaded_rows * bandwidth)
      (bandwidth * gpu_ops))

/-- Row `b` is the first (smallest) minimiser of `time` among the rows
`lo, lo+1, ..., hi`. -/
def IsFirstMin (time : Int → Int) (lo hi b : Int) : Prop :=
  lo ≤ b ∧ b ≤ hi ∧ (∀ r, lo ≤ r → r ≤ hi → time b ≤ time r) ∧
    (∀ r, lo ≤ r → r < b → time b < time r)

/-- The specification's `clamp(x, lo, hi)`: `lo` below the range, `hi` above it,
`x` itself inside. -/
def clamp (x lo hi : Int) : Int :=
  if x < lo then lo else if hi < x then hi else x

/-- The closed formula the specification gives for the estimate:
`ceil(max(c, g))` with `G = clamp(rows-K+1, 0, M-K+1)`, `W = N-K+1`,
`P = 2*K*K-1`, `c = (M-K+1-G)*W*P / cpu_ops` and
`g = 4*N*min(G+K-1, M)/bandwidth + G*W*P/gpu_ops + 4*G*W/bandwidth`. -/
def spec_estimate (M N K cpu_ops gpu_ops bandwidth rows : Int) : Int :=
  let G : Int := clamp (rows - K + 1) 0 (M - K + 1)
  let W : Int := N - K + 1
  let P : Int := 2 * K * K - 1
  let c : ℚ := (((M - K + 1 - G) * W * P : Int) : ℚ) / (cpu_ops : ℚ)
  let g : ℚ := ((4 * N * min (G + K - 1) M : Int) : ℚ) / (bandwidth : ℚ)
    + ((G * W * P : Int) : ℚ) / (gpu_ops : ℚ)
    + ((4 * G * W : Int) : ℚ) / (bandwidth : ℚ)
  ⌈max c g⌉

/-- The specification's unimodal cost curve on the row counts `0..M`:
non-increasing up to some row count `m` and non-decreasing after it. -/
def Unimodal (time : Int → Int) (M : Int) : Prop :=
  ∃ m, 0 ≤ m ∧ m ≤ M ∧ (∀ r r', 0 ≤ r → r ≤ r' → r' ≤ m → time r' ≤ time r) ∧
    (∀ r r', m ≤ r → r ≤ r' → r' ≤ M → time r ≤ time r')

/-- Lines 75-86: one iteration of the narrowing loop on the bracket `lr = (left, right)`:
the two probes and the update of `right` or `left`. -/
def narrow_iter (time : Int → Int) (lr : Int × Int) : Int × Int :=
  let mid1 := lr.1 + (lr.2 - lr.1).tdiv 3
  let mid2 := lr.2 - (lr.2 - lr.1).tdiv 3
  if time mid1 ≤ time mid2 then (lr.1, mid2) else (mid1, lr.2)

/-! ## The cost model with the integer widths the code declares -/

/-- The value a 32-bit `int` holds for the exact value `x` when overflow wraps around
modulo `2^32`. -/
def wrap32 (x : Int) : Int := (x + 2147483648) % 4294967296 - 2147483648

/-- The value a 64-bit `long long` holds for the exact value `x` when overflow wraps
around modulo `2^64`. -/
def wrap64 (x : Int) : Int :=
  (x + 9223372036854775808) % 18446744073709551616 - 9223372036854775808

/-- Line 6 in `int` arithmetic: `int ops_per_position = 2 * K * K - 1`. -/
def ops_per_position_wrapped (K : Int) : Int := wrap32 (wrap32 (wrap32 (2 * K) * K) - 1)

/-- Line 8 in `int` arithmetic: `int output_height = M - K + 1`. -/
def output_height_wrapped (M K : Int) : Int := wrap32 (wrap32 (M - K) + 1)

/-- Line 9 in `int` arithmetic: `int output_width = N - K + 1`. -/
def output_width_wrapped (N K : Int) : Int := wrap32 (wrap32 (N - K) + 1)

/-- Line 10 in `long long` arithmetic:
`static_cast<long long>(output_height) * output_width`. -/
def total_output_positions_wrapped (M N K : Int) : Int :=
  wrap64 (output_height_wrapped M K * output_width_wrapped N K)

/-- Line 12 in `int` arithmetic:
`max(0, min(num_offloaded_rows - K + 1, output_height))`. -/
def gpu_output_rows_wrapped (M K num_offloaded_rows : Int) : Int :=
  max 0 (min (wrap32 (wrap32 (num_offloaded_rows - K) + 1)) (output_height_wrapped M K))

/-- Line 14 in `long long` arithmetic:
`static_cast<long long>(gpu_output_rows) * output_width`. -/
def gpu_positions_wrapped (M N K num_offloaded_rows : Int) : Int :=
  wrap64 (gpu_output_rows_wrapped M K num_offloaded_rows * output_width_wrapped N K)

/-- Line 15 in `long long` arithmetic: `total_output_positions - gpu_positions`. -/
def cpu_positions_wrapped (M N K num_offloaded_rows : Int) : Int :=
  wrap64 (total_output_positions_wrapped M N K - gpu_positions_wrapped M N K num_offloaded_rows)

/-- Line 17 in `long long` arithmetic: `cpu_positions * ops_per_position`. -/
def cpu_total_ops_wrapped (M N K num_offloaded_rows : Int) : Int :=
  wrap64 (cpu_positions_wrapped M N K num_offloaded_rows * ops_per_position_wrapped K)

/-- Line 18 in `long long` arithmetic: `gpu_positions * ops_per_position`. -/
def gpu_total_ops_wrapped (M N K num_offloaded_rows : Int) : Int :=
  wrap64 (gpu_positions_wrapped M N K num_offloaded_rows * ops_per_position_wrapped K)

/-- Line 23 in `int` arithmetic: `min(gpu_output_rows + K - 1, M)`. -/
def rows_to_transfer_wrapped (M K num_offloaded_rows : Int) : Int :=
  min (wrap32 (wrap32 (gpu_output_rows_wrapped M K num_offloaded_rows + K) - 1)) M

/-- Line 24 in `int` arithmetic:
`int gpu_input_data_size = rows_to_transfer * N * data_size`. -/
def gpu_input_data_size_wrapped (M N K num_offloaded_rows : Int) : Int :=
  wrap32 (wrap32 (rows_to_transfer_wrapped M K num_offloaded_rows * N) * data_size)

/-- Line 25: `int gpu_output_data_size = gpu_positions * data_size`, a `long long`
product converted to `int`. -/
def gpu_output_data_size_wrapped (M N K num_offloaded_rows : Int) : Int :=
  wrap32 (wrap64 (gpu_positions_wrapped M N K num_offloaded_rows * data_size))

/-- Lines 20-32 on given operation and byte counts: the two times, their maximum and its
ceiling. -/
def estimate_from_counts
    (cpu_total_ops gpu_total_ops gpu_input_data_size gpu_output_data_size
      cpu_ops gpu_ops bandwidth : Int) : Int :=
  ⌈max ((cpu_total_ops : ℚ) / (cpu_ops : ℚ))
    ((gpu_input_data_size : ℚ) / (bandwidth : ℚ) + (gpu_total_ops : ℚ) / (gpu_ops : ℚ)
      + (gpu_output_data_size : ℚ) / (bandwidth : ℚ))⌉

/-- Lines 3-33 with the widths the code declares: `int` values wrap modulo `2^32`,
`long long` values modulo `2^64`, the `double` quotients are exact, and the final
conversion of the ceiling to `int` is taken exactly. -/
def estimate_exec_time_wrapped
    (M N K cpu_ops gpu_ops bandwidth num_offloaded_rows : Int) : Int :=
  estimate_from_counts (cpu_total_ops_wrapped M N K num_offloaded_rows)
    (gpu_total_ops_wrapped M N K num_offloaded_rows)
    (gpu_input_data_size_wrapped M N K num_offloaded_rows)
    (gpu_output_data_size_wrapped M N K num_offloaded_rows) cpu_ops gpu_ops bandwidth


/-! # Theorems -/

/-! ## Evaluation of the cost model with integer arithmetic -/

/-- The ceiling of an exact quotient of integers with positive divisor is `ceil_div`. -/
theorem ceil_intCast_div (a b : Int) (hb : 0 < b) : ⌈((a : ℚ) / (b : ℚ))⌉ = ceil_div a b := by
  unfold ceil_div
  have hbq : (0 : ℚ) < (b : ℚ) := by exact_mod_cast hb
  rw [Int.ceil_eq_iff]
  have h1 := Int.emod_add_ediv (-a) b
  have h2 := Int.emod_nonneg (-a) hb.ne'
  have h3 := Int.emod_lt_of_pos (-a) hb
  set q := (-a) / b with hq
  set m := (-a) % b with hm
  have ha : (a : ℚ) = -((m : ℚ) + (b : ℚ) * (q : ℚ)) := by
    have : a = -(m + b * q) := by omega
    exact_mod_cast this
  have hm0 : (0 : ℚ) ≤ (m : ℚ) := by exact_mod_cast h2
  have hm1 : (m : ℚ) < (b : ℚ) := by exact_mod_cast h3
  constructor
  · rw [lt_div_iff₀ hbq]
    push_cast
    rw [ha]
    nlinarith
  · rw [div_le_iff₀ hbq]
    push_cast
    rw [ha]
    nlinarith

/-- For positive throughputs the cost model equals its integer form `estimate_int`. -/
theorem estimate_exec_time_eq_int (M N K cpu_ops gpu_ops bandwidth rows : Int)
    (hc : 0 < cpu_ops) (hg : 0 < gpu_ops) (hb : 0 < bandwidth) :
    estimate_exec_time M N K cpu_ops gpu_ops bandwidth rows
      = estimate_int M N K cpu_ops gpu_ops bandwidth rows := by
  unfold estimate_exec_time estimate_int
  rw [(Int.ceil_mono (α := ℚ)).map_max]
  have hgq : (gpu_ops : ℚ) ≠ 0 := by exact_mod_cast hg.ne'
  have hbq : (bandwidth : ℚ) ≠ 0 := by exact_mod_cast hb.ne'
  have hsum : gpu_total_time M N K gpu_ops bandwidth rows
      = (((gpu_input_data_size M N K rows + gpu_output_data_size M N K rows) * gpu_ops
          + gpu_total_ops M N K rows * bandwidth : Int) : ℚ)
        / ((bandwidth * gpu_ops : Int) : ℚ) := by
    unfold gpu_total_time transfer_to_gpu_time gpu_compute_time transfer_from_gpu_time
    push_cast
    field_simp
    ring
  rw [hsum, ceil_intCast_div _ _ (Int.mul_pos hb hg)]
  unfold cpu_time
  rw [ceil_intCast_div _ _ hc]


/-! ## The scanning loops -/

/-- Invariant of the scanning loop after `n` iterations from the state `(b0, m0)`:
`min_time` bounds every scanned value and the initial `m0`, and either nothing was
replaced or `best_rows` is the first scanned row attaining `min_time`, below `m0`. -/
theorem scan_fold_inv (time : Int → Int) (first b0 m0 : Int) (n : Nat) :
    let st := (List.range n).foldl (fun s (i : Nat) => scan_step time s (first + (i : Int))) (b0, m0)
    (∀ i : Nat, i < n → st.2 ≤ time (first + i)) ∧ st.2 ≤ m0 ∧
      (st = (b0, m0) ∨
        ∃ i : Nat, i < n ∧ st.1 = first + i ∧ st.2 = time (first + i) ∧ st.2 < m0 ∧
          ∀ j : Nat, j < i → st.2 < time (first + j)) := by
  induction n with
  | zero => simp
  | succ n ih =>
    simp only [List.range_succ, List.foldl_append, List.foldl_cons, List.foldl_nil]
    simp only at ih
    generalize (List.range n).foldl (fun s (i : Nat) => scan_step time s (first + (i : Int))) (b0, m0)
      = st at ih
    obtain ⟨h1, h2, h3⟩ := ih
    unfold scan_step
    split
    · rename_i hlt
      refine ⟨?_, ?_, Or.inr ⟨n, Nat.lt_succ_self n, rfl, rfl, ?_, ?_⟩⟩
      · intro i hi
        rcases Nat.lt_succ_iff_lt_or_eq.mp hi with h | h
        · exact le_of_lt (lt_of_lt_of_le hlt (h1 i h))
        · subst h; exact le_refl _
      · exact le_of_lt (lt_of_lt_of_le hlt h2)
      · exact lt_of_lt_of_le hlt h2
      · intro j hj
        exact lt_of_lt_of_le hlt (h1 j hj)
    · rename_i hge
      refine ⟨?_, h2, ?_⟩
      · intro i hi
        rcases Nat.lt_succ_iff_lt_or_eq.mp hi with h | h
        · exact h1 i h
        · subst h; exact not_lt.mp hge
      · rcases h3 with h | ⟨i, hi, hrest⟩
        · exact Or.inl h
        · exact Or.inr ⟨i, Nat.lt_succ_of_lt hi, hrest⟩

/-- The scan of `first..last` returns the initial best row or a scanned row. -/
theorem scan_fst_range (time : Int → Int) (first last b0 m0 : Int) :
    (scan time first last (b0, m0)).1 = b0 ∨
      (first ≤ (scan time first last (b0, m0)).1 ∧ (scan time first last (b0, m0)).1 ≤ last) := by
  have h := scan_fold_inv time first b0 m0 (last + 1 - first).toNat
  simp only at h
  unfold scan
  obtain ⟨-, -, h3⟩ := h
  rcases h3 with h | ⟨i, hi, hb, -⟩
  · left; rw [h]
  · right; rw [hb]; omega

/-- The exhaustive scan from the sentinel `(0, INT_MAX)` finds the first minimiser
on `0..M`, provided no scanned value exceeds `INT_MAX`. -/
theorem scan_sentinel_isFirstMin (time : Int → Int) (M : Int) (hM : 0 ≤ M)
    (hfit : ∀ r, 0 ≤ r → r ≤ M → time r ≤ INT_MAX) :
    IsFirstMin time 0 M (scan time 0 M (0, INT_MAX)).1 := by
  have h := scan_fold_inv time 0 0 INT_MAX (M + 1 - 0).toNat
  simp only at h
  unfold scan
  generalize (List.range (M + 1 - 0).toNat).foldl
    (fun s (i : Nat) => scan_step time s (0 + (i : Int))) (0, INT_MAX) = st at h
  obtain ⟨h1, -, h3⟩ := h
  have hall : ∀ r, 0 ≤ r → r ≤ M → st.2 ≤ time r := by
    intro r hr0 hrM
    have := h1 r.toNat (by omega)
    rwa [Int.toNat_of_nonneg hr0, zero_add] at this
  rcases h3 with h | ⟨i, hi, hb, hm, -, hprev⟩
  · rw [h] at hall ⊢
    refine ⟨le_refl _, hM, ?_, ?_⟩
    · intro r hr0 hrM
      exact le_trans (hfit 0 (le_refl _) hM) (hall r hr0 hrM)
    · intro r hr0 hr
      exact absurd hr (not_lt.mpr hr0)
  · rw [hb]
    refine ⟨by omega, by omega, ?_, ?_⟩
    · intro r hr0 hrM
      rw [← hm]; exact hall r hr0 hrM
    · intro r hr0 hr
      have := hprev r.toNat (by omega)
      rw [Int.toNat_of_nonneg hr0, zero_add] at this
      rw [← hm]; exact this

/-- The final scan of `left+1..right` started at `(left, time left)` finds the
first minimiser on `left..right`. -/
theorem scan_final_isFirstMin (time : Int → Int) (left right : Int) (h : left ≤ right) :
    IsFirstMin time left right (scan time (left + 1) right (left, time left)).1 := by
  have h0 := scan_fold_inv time (left + 1) left (time left) (right + 1 - (left + 1)).toNat
  simp only at h0
  unfold scan
  generalize (List.range (right + 1 - (left + 1)).toNat).foldl
    (fun s (i : Nat) => scan_step time s (left + 1 + (i : Int))) (left, time left) = st at h0
  obtain ⟨h1, -, h3⟩ := h0
  have hall : ∀ r, left + 1 ≤ r → r ≤ right → st.2 ≤ time r := by
    intro r hr0 hrM
    have := h1 (r - (left + 1)).toNat (by omega)
    rwa [Int.toNat_of_nonneg (by omega), add_sub_cancel] at this
  rcases h3 with h3 | ⟨i, hi, hb, hm, hlt, hprev⟩
  · rw [h3] at hall ⊢
    refine ⟨le_refl _, h, ?_, ?_⟩
    · intro r hr0 hrM
      rcases eq_or_lt_of_le hr0 with h' | h'
      · rw [h']
      · exact hall r (by omega) hrM
    · intro r hr0 hr
      exact absurd hr (not_lt.mpr hr0)
  · rw [hb]
    refine ⟨by omega, by omega, ?_, ?_⟩
    · intro r hr0 hrM
      rw [← hm]
      rcases eq_or_lt_of_le hr0 with h' | h'
      · rw [← h']; exact le_of_lt hlt
      · exact hall r (by omega) hrM
    · intro r hr0 hr
      rw [← hm]
      rcases eq_or_lt_of_le hr0 with h' | h'
      · rw [← h']; exact hlt
      · have := hprev (r - (left + 1)).toNat (by omega)
        rwa [Int.toNat_of_nonneg (by omega), add_sub_cancel] at this

/-! ## The narrowing loop -/

/-- On a non-negative width the truncating division by 3 is the floor division. -/
theorem tdiv_three (w : Int) (h : 0 ≤ w) : w.tdiv 3 = w / 3 :=
  Int.tdiv_eq_ediv h (by decide)

/-- One iteration of the narrowing loop, with the probes written with `/`. -/
theorem narrow_step (time : Int → Int) (left right : Int) (hw : right - left > 2) :
    narrow time left right =
      if time (left + (right - left) / 3) ≤ time (right - (right - left) / 3)
      then narrow time left (right - (right - left) / 3)
      else narrow time (left + (right - left) / 3) right := by
  rw [narrow, if_pos hw]
  simp only [tdiv_three (right - left) (by omega)]

/-- The narrowing loop stops on a bracket of width at most 2. -/
theorem narrow_stop (time : Int → Int) (left right : Int) (hw : ¬ right - left > 2) :
    narrow time left right = (left, right) := by
  rw [narrow, if_neg hw]

/-- The narrowing loop returns a sub-bracket of the initial one, of width at most 2. -/
theorem narrow_bounds (time : Int → Int) (n : Nat) :
    ∀ left right : Int, left ≤ right → (right - left).toNat ≤ n →
      left ≤ (narrow time left right).1 ∧
        (narrow time left right).1 ≤ (narrow time left right).2 ∧
        (narrow time left right).2 ≤ right ∧
        (narrow time left right).2 - (narrow time left right).1 ≤ 2 := by
  induction n with
  | zero =>
    intro left right h hn
    rw [narrow_stop time left right (by omega)]
    simp only
    omega
  | succ n ih =>
    intro left right h hn
    by_cases hw : right - left > 2
    · rw [narrow_step time left right hw]
      split
      · have := ih left (right - (right - left) / 3) (by omega) (by omega)
        omega
      · have := ih (left + (right - left) / 3) right (by omega) (by omega)
        omega
    · rw [narrow_stop time left right hw]
      simp only
      omega

/-- On a bracket where the cost is constant the loop never moves `left`. -/
theorem narrow_const (time : Int → Int) (n : Nat) :
    ∀ left right : Int, left ≤ right → (right - left).toNat ≤ n →
      (∀ r, left ≤ r → r ≤ right → time r = time left) →
      (narrow time left right).1 = left := by
  induction n with
  | zero =>
    intro left right h hn _
    rw [narrow_stop time left right (by omega)]
  | succ n ih =>
    intro left right h hn hconst
    by_cases hw : right - left > 2
    · rw [narrow_step time left right hw]
      split
      · exact ih left (right - (right - left) / 3) (by omega) (by omega)
          (fun r h1 h2 => hconst r h1 (by omega))
      · rename_i hle
        exfalso
        apply hle
        rw [hconst (left + (right - left) / 3) (by omega) (by omega),
          hconst (right - (right - left) / 3) (by omega) (by omega)]
    · rw [narrow_stop time left right hw]

/-! ## The cost model -/

/-- The estimate depends on the row count only through `gpu_output_rows`. -/
theorem estimate_exec_time_congr (M N K cpu_ops gpu_ops bandwidth r1 r2 : Int)
    (h : gpu_output_rows M K r1 = gpu_output_rows M K r2) :
    estimate_exec_time M N K cpu_ops gpu_ops bandwidth r1
      = estimate_exec_time M N K cpu_ops gpu_ops bandwidth r2 := by
  unfold estimate_exec_time cpu_time gpu_total_time transfer_to_gpu_time gpu_compute_time
    transfer_from_gpu_time cpu_total_ops gpu_total_ops gpu_input_data_size gpu_output_data_size
    cpu_positions rows_to_transfer gpu_positions
  rw [h]

/-- With a matrix lower than the kernel no output row goes to the GPU. -/
theorem gpu_output_rows_of_lt (M K rows : Int) (h : M < K) : gpu_output_rows M K rows = 0 := by
  unfold gpu_output_rows output_height
  omega

/-- Fewer than `K` offloaded rows produce no GPU output row. -/
theorem gpu_output_rows_of_lt_kernel (M K rows : Int) (h : rows < K) :
    gpu_output_rows M K rows = 0 := by
  unfold gpu_output_rows output_height
  omega

/-- C1: for `1 ≤ K ≤ M`, `K ≤ N` and positive throughputs, `estimate_exec_time`
equals the specification's closed formula `ceil(max(c, g))`. -/
theorem estimate_exec_time_eq_spec (M N K cpu_ops gpu_ops bandwidth rows : Int)
    (_hK : 1 ≤ K) (hKM : K ≤ M) (_hKN : K ≤ N)
    (_hc : 0 < cpu_ops) (_hg : 0 < gpu_ops) (_hb : 0 < bandwidth) :
    estimate_exec_time M N K cpu_ops gpu_ops bandwidth rows
      = spec_estimate M N K cpu_ops gpu_ops bandwidth rows := by
  have hG : clamp (rows - K + 1) 0 (M - K + 1) = gpu_output_rows M K rows := by
    unfold clamp gpu_output_rows output_height
    split_ifs <;> omega
  unfold spec_estimate
  simp only [hG]
  unfold estimate_exec_time cpu_time gpu_total_time transfer_to_gpu_time gpu_compute_time
    transfer_from_gpu_time cpu_total_ops gpu_total_ops gpu_input_data_size gpu_output_data_size
    cpu_positions rows_to_transfer gpu_positions total_output_positions output_height output_width
    ops_per_position data_size
  congr 2
  · congr 1
    push_cast
    ring
  · congr 1
    · congr 1
      · congr 1
        push_cast
        ring
    · congr 1
      push_cast
      ring

/-- Witness of C1 at `M = 100, N = 100, K = 3, cpu_ops = 4, gpu_ops = 10,
bandwidth = 2, rows = 3`. -/
theorem estimate_exec_time_eq_spec_witness :
    estimate_exec_time 100 100 3 4 10 2 3 = spec_estimate 100 100 3 4 10 2 3 :=
  estimate_exec_time_eq_spec 100 100 3 4 10 2 3 (by decide) (by decide) (by decide)
    (by decide) (by decide) (by decide)

/-! ## The exhaustive search -/

/-- The cost model agrees with its integer form as a function of the row count. -/
theorem estimate_exec_time_fun_eq_int (M N K cpu_ops gpu_ops bandwidth : Int)
    (hc : 0 < cpu_ops) (hg : 0 < gpu_ops) (hb : 0 < bandwidth) :
    estimate_exec_time M N K cpu_ops gpu_ops bandwidth
      = estimate_int M N K cpu_ops gpu_ops bandwidth :=
  funext fun rows => estimate_exec_time_eq_int M N K cpu_ops gpu_ops bandwidth rows hc hg hb

/-- For `K ≤ M`, `0 ≤ M` and estimates that fit the `int` type, the exhaustive
search returns the first minimiser of the estimate on `0..M`. -/
theorem exhaustive_isFirstMin (M N K cpu_ops gpu_ops bandwidth : Int) (hM : 0 ≤ M) (hKM : K ≤ M)
    (hfit : ∀ r, 0 ≤ r → r ≤ M → estimate_exec_time M N K cpu_ops gpu_ops bandwidth r ≤ INT_MAX) :
    IsFirstMin (estimate_exec_time M N K cpu_ops gpu_ops bandwidth) 0 M
      (get_recommended_number_offloaded_rows M N K cpu_ops gpu_ops bandwidth) := by
  unfold get_recommended_number_offloaded_rows
  rw [if_neg (not_lt.mpr hKM)]
  exact scan_sentinel_isFirstMin _ M hM hfit

/-- The exhaustive search returns a row count in `0..M` when `0 ≤ M`. -/
theorem exhaustive_range (M N K cpu_ops gpu_ops bandwidth : Int) (hM : 0 ≤ M) :
    0 ≤ get_recommended_number_offloaded_rows M N K cpu_ops gpu_ops bandwidth ∧
      get_recommended_number_offloaded_rows M N K cpu_ops gpu_ops bandwidth ≤ M := by
  unfold get_recommended_number_offloaded_rows
  split
  · exact ⟨le_refl _, hM⟩
  · rcases scan_fst_range (estimate_exec_time M N K cpu_ops gpu_ops bandwidth) 0 M 0 INT_MAX
      with h | h
    · rw [h]; exact ⟨le_refl _, hM⟩
    · exact h

/-- The accelerated search returns a row count in `0..M` when `0 ≤ M`. -/
theorem optimized_range (M N K cpu_ops gpu_ops bandwidth : Int) (hM : 0 ≤ M) :
    0 ≤ get_recommended_number_offloaded_rows_optimized M N K cpu_ops gpu_ops bandwidth ∧
      get_recommended_number_offloaded_rows_optimized M N K cpu_ops gpu_ops bandwidth ≤ M := by
  unfold get_recommended_number_offloaded_rows_optimized
  split
  · exact ⟨le_refl _, hM⟩
  · split
    · exact exhaustive_range M N K cpu_ops gpu_ops bandwidth hM
    · simp only
      have hb := narrow_bounds (estimate_exec_time M N K cpu_ops gpu_ops bandwidth) M.toNat 0 M hM
        (by omega)
      rcases scan_fst_range (estimate_exec_time M N K cpu_ops gpu_ops bandwidth)
        ((narrow (estimate_exec_time M N K cpu_ops gpu_ops bandwidth) 0 M).1 + 1)
        (narrow (estimate_exec_time M N K cpu_ops gpu_ops bandwidth) 0 M).2
        (narrow (estimate_exec_time M N K cpu_ops gpu_ops bandwidth) 0 M).1
        (estimate_exec_time M N K cpu_ops gpu_ops bandwidth
          (narrow (estimate_exec_time M N K cpu_ops gpu_ops bandwidth) 0 M).1) with h | h
      · rw [h]; omega
      · omega

/-- C2: for positive inputs with `K ≤ M` whose estimates are `int` values (at most
`INT_MAX`, as the return type of `estimate_exec_time` makes them),
`get_recommended_number_offloaded_rows` returns the smallest row count of `[0, M]`
with minimal estimate: it lies in `[0, M]`, no row count of `[0, M]` has a smaller
estimate, and every smaller row count has a strictly larger estimate. -/
theorem exhaustive_returns_smallest_minimiser (M N K cpu_ops gpu_ops bandwidth : Int)
    (hM : 0 < M) (_hN : 0 < N) (_hK : 0 < K)
    (_hc : 0 < cpu_ops) (_hg : 0 < gpu_ops) (_hb : 0 < bandwidth) (hKM : K ≤ M)
    (hfit : ∀ r, 0 ≤ r → r ≤ M →
      estimate_exec_time M N K cpu_ops gpu_ops bandwidth r ≤ INT_MAX) :
    0 ≤ get_recommended_number_offloaded_rows M N K cpu_ops gpu_ops bandwidth ∧
    get_recommended_number_offloaded_rows M N K cpu_ops gpu_ops bandwidth ≤ M ∧
    (∀ r, 0 ≤ r → r ≤ M →
      estimate_exec_time M N K cpu_ops gpu_ops bandwidth
          (get_recommended_number_offloaded_rows M N K cpu_ops gpu_ops bandwidth)
        ≤ estimate_exec_time M N K cpu_ops gpu_ops bandwidth r) ∧
    (∀ r, 0 ≤ r → r < get_recommended_number_offloaded_rows M N K cpu_ops gpu_ops bandwidth →
      estimate_exec_time M N K cpu_ops gpu_ops bandwidth
          (get_recommended_number_offloaded_rows M N K cpu_ops gpu_ops bandwidth)
        < estimate_exec_time M N K cpu_ops gpu_ops bandwidth r) :=
  exhaustive_isFirstMin M N K cpu_ops gpu_ops bandwidth (le_of_lt hM) hKM hfit

/-- The estimates of the input `M = 3, N = 10, K = 3, cpu_ops = 100, gpu_ops = 200,
bandwidth = 50` fit the `int` type. -/
theorem estimate_small_fits (r : Int) (h0 : 0 ≤ r) (h3 : r ≤ 3) :
    estimate_exec_time 3 10 3 100 200 50 r ≤ INT_MAX := by
  rw [estimate_exec_time_eq_int _ _ _ _ _ _ _ (by decide) (by decide) (by decide)]
  interval_cases r <;> decide

/-- Witness of C2 at `M = 3, N = 10, K = 3, cpu_ops = 100, gpu_ops = 200,
bandwidth = 50`. -/
theorem exhaustive_returns_smallest_minimiser_witness :
    0 ≤ get_recommended_number_offloaded_rows 3 10 3 100 200 50 ∧
    get_recommended_number_offloaded_rows 3 10 3 100 200 50 ≤ 3 ∧
    (∀ r, 0 ≤ r → r ≤ 3 →
      estimate_exec_time 3 10 3 100 200 50 (get_recommended_number_offloaded_rows 3 10 3 100 200 50)
        ≤ estimate_exec_time 3 10 3 100 200 50 r) ∧
    (∀ r, 0 ≤ r → r < get_recommended_number_offloaded_rows 3 10 3 100 200 50 →
      estimate_exec_time 3 10 3 100 200 50 (get_recommended_number_offloaded_rows 3 10 3 100 200 50)
        < estimate_exec_time 3 10 3 100 200 50 r) :=
  exhaustive_returns_smallest_minimiser 3 10 3 100 200 50 (by decide) (by decide) (by decide)
    (by decide) (by decide) (by decide) (by decide) estimate_small_fits

/-- C4: for `M < K` the estimate does not depend on the number of offloaded rows. -/
theorem estimate_exec_time_degenerate_invariant (M N K cpu_ops gpu_ops bandwidth r1 r2 : Int)
    (h : M < K) :
    estimate_exec_time M N K cpu_ops gpu_ops bandwidth r1
      = estimate_exec_time M N K cpu_ops gpu_ops bandwidth r2 :=
  estimate_exec_time_congr M N K cpu_ops gpu_ops bandwidth r1 r2
    (by rw [gpu_output_rows_of_lt M K r1 h, gpu_output_rows_of_lt M K r2 h])

/-- Witness of C4: the specification's example, `rows = 5` against `rows = 0` at
`M = 2, N = 10, K = 3, cpu_ops = 100, gpu_ops = 200, bandwidth = 50`. -/
theorem estimate_exec_time_degenerate_invariant_witness :
    estimate_exec_time 2 10 3 100 200 50 5 = estimate_exec_time 2 10 3 100 200 50 0 :=
  estimate_exec_time_degenerate_invariant 2 10 3 100 200 50 5 0 (by decide)

/-- C5: for `M < K` both searches return 0. -/
theorem recommended_rows_degenerate (M N K cpu_ops gpu_ops bandwidth : Int) (h : M < K) :
    get_recommended_number_offloaded_rows M N K cpu_ops gpu_ops bandwidth = 0 ∧
      get_recommended_number_offloaded_rows_optimized M N K cpu_ops gpu_ops bandwidth = 0 := by
  unfold get_recommended_number_offloaded_rows_optimized get_recommended_number_offloaded_rows
  rw [if_pos h, if_pos h]
  exact ⟨rfl, rfl⟩

/-- Witness of C5: the specification's example `M = 2, N = 10, K = 3, cpu_ops = 100,
gpu_ops = 200, bandwidth = 50`. -/
theorem recommended_rows_degenerate_witness :
    get_recommended_number_offloaded_rows 2 10 3 100 200 50 = 0 ∧
      get_recommended_number_offloaded_rows_optimized 2 10 3 100 200 50 = 0 :=
  recommended_rows_degenerate 2 10 3 100 200 50 (by decide)

/-- C6: for positive inputs both searches return a row count `r` with `0 ≤ r ≤ M`. -/
theorem recommended_rows_in_range (M N K cpu_ops gpu_ops bandwidth : Int)
    (hM : 0 < M) (_hN : 0 < N) (_hK : 0 < K)
    (_hc : 0 < cpu_ops) (_hg : 0 < gpu_ops) (_hb : 0 < bandwidth) :
    (0 ≤ get_recommended_number_offloaded_rows M N K cpu_ops gpu_ops bandwidth ∧
      get_recommended_number_offloaded_rows M N K cpu_ops gpu_ops bandwidth ≤ M) ∧
    (0 ≤ get_recommended_number_offloaded_rows_optimized M N K cpu_ops gpu_ops bandwidth ∧
      get_recommended_number_offloaded_rows_optimized M N K cpu_ops gpu_ops bandwidth ≤ M) :=
  ⟨exhaustive_range M N K cpu_ops gpu_ops bandwidth (le_of_lt hM),
    optimized_range M N K cpu_ops gpu_ops bandwidth (le_of_lt hM)⟩

/-- Witness of C6 at the large test input `M = 1000, N = 1000, K = 5, cpu_ops = 500,
gpu_ops = 2000, bandwidth = 100`. -/
theorem recommended_rows_in_range_witness :
    (0 ≤ get_recommended_number_offloaded_rows 1000 1000 5 500 2000 100 ∧
      get_recommended_number_offloaded_rows 1000 1000 5 500 2000 100 ≤ 1000) ∧
    (0 ≤ get_recommended_number_offloaded_rows_optimized 1000 1000 5 500 2000 100 ∧
      get_recommended_number_offloaded_rows_optimized 1000 1000 5 500 2000 100 ≤ 1000) :=
  recommended_rows_in_range 1000 1000 5 500 2000 100 (by decide) (by decide) (by decide)
    (by decide) (by decide) (by decide)

/-- C7: for `M < 100` the accelerated search returns exactly the value of the
exhaustive search. -/
theorem optimized_eq_exhaustive_small (M N K cpu_ops gpu_ops bandwidth : Int) (h : M < 100) :
    get_recommended_number_offloaded_rows_optimized M N K cpu_ops gpu_ops bandwidth
      = get_recommended_number_offloaded_rows M N K cpu_ops gpu_ops bandwidth := by
  unfold get_recommended_number_offloaded_rows_optimized
  by_cases hK : M < K
  · unfold get_recommended_number_offloaded_rows
    rw [if_pos hK, if_pos hK]
  · rw [if_neg hK, if_pos h]

/-- Witness of C7: the test input `M = 10, N = 10, K = 3, cpu_ops = 100, gpu_ops = 200,
bandwidth = 50`. -/
theorem optimized_eq_exhaustive_small_witness :
    get_recommended_number_offloaded_rows_optimized 10 10 3 100 200 50
      = get_recommended_number_offloaded_rows 10 10 3 100 200 50 :=
  optimized_eq_exhaustive_small 10 10 3 100 200 50 (by decide)

/-! ## The accelerated search on a cost curve with a long initial plateau -/

/-- When the kernel is so tall that both first probes `M/3` and `M - M/3` request
fewer than `K` rows, the accelerated search returns 0 whatever the throughputs. -/
theorem optimized_eq_zero_of_tall_kernel (M N K cpu_ops gpu_ops bandwidth : Int)
    (hM : 100 ≤ M) (hKM : K ≤ M) (hK : M - M / 3 ≤ K - 1) :
    get_recommended_number_offloaded_rows_optimized M N K cpu_ops gpu_ops bandwidth = 0 := by
  have hplat : ∀ r, r ≤ K - 1 → estimate_exec_time M N K cpu_ops gpu_ops bandwidth r
      = estimate_exec_time M N K cpu_ops gpu_ops bandwidth 0 := by
    intro r hr
    apply estimate_exec_time_congr
    rw [gpu_output_rows_of_lt_kernel M K r (by omega),
      gpu_output_rows_of_lt_kernel M K 0 (by omega)]
  unfold get_recommended_number_offloaded_rows_optimized
  rw [if_neg (not_lt.mpr hKM), if_neg (by omega)]
  simp only
  generalize estimate_exec_time M N K cpu_ops gpu_ops bandwidth = time at hplat ⊢
  have hstep : narrow time 0 M = narrow time 0 (M - M / 3) := by
    rw [narrow_step time 0 M (by omega)]
    simp only [sub_zero, zero_add]
    rw [if_pos]
    rw [hplat (M / 3) (by omega), hplat (M - M / 3) hK]
  rw [hstep]
  have hl := narrow_const time (M - M / 3).toNat 0 (M - M / 3) (by omega) (by omega)
    (fun r _ h2 => hplat r (by omega))
  have hb := narrow_bounds time (M - M / 3).toNat 0 (M - M / 3) (by omega) (by omega)
  have hfm := scan_final_isFirstMin time (narrow time 0 (M - M / 3)).1
    (narrow time 0 (M - M / 3)).2 hb.2.1
  rw [hl] at hfm hb ⊢
  obtain ⟨h1, h2, -, h4⟩ := hfm
  rcases eq_or_lt_of_le h1 with h | h
  · exact h.symm
  · have := h4 0 (le_refl _) h
    rw [hplat _ (by omega)] at this
    exact absurd this (lt_irrefl _)

/-- At `M = 100, N = 100, K = 70, cpu_ops = 100, gpu_ops = 10000, bandwidth = 10000`
the estimate never increases with the number of offloaded rows. -/
theorem tall_kernel_estimate_antitone (r r' : Int) (h0 : 0 ≤ r) (h1 : r ≤ r') (h2 : r' ≤ 100) :
    estimate_exec_time 100 100 70 100 10000 10000 r'
      ≤ estimate_exec_time 100 100 70 100 10000 10000 r := by
  rw [estimate_exec_time_eq_int _ _ _ _ _ _ _ (by decide) (by decide) (by decide),
    estimate_exec_time_eq_int _ _ _ _ _ _ _ (by decide) (by decide) (by decide)]
  unfold estimate_int ceil_div cpu_total_ops gpu_total_ops gpu_input_data_size
    gpu_output_data_size cpu_positions rows_to_transfer gpu_positions total_output_positions
    gpu_output_rows output_height output_width ops_per_position data_size
  omega

/-- At the same input every row count below 100 costs at least 3038 time units. -/
theorem tall_kernel_estimate_ge (r : Int) (h1 : r ≤ 99) :
    3038 ≤ estimate_exec_time 100 100 70 100 10000 10000 r := by
  rw [estimate_exec_time_eq_int _ _ _ _ _ _ _ (by decide) (by decide) (by decide)]
  unfold estimate_int ceil_div cpu_total_ops gpu_total_ops gpu_input_data_size
    gpu_output_data_size cpu_positions rows_to_transfer gpu_positions total_output_positions
    gpu_output_rows output_height output_width ops_per_position data_size
  omega

/-- At the same input no estimate on `0..100` exceeds `INT_MAX`. -/
theorem tall_kernel_estimate_fits (r : Int) (h0 : 0 ≤ r) (_h1 : r ≤ 100) :
    estimate_exec_time 100 100 70 100 10000 10000 r ≤ INT_MAX := by
  rw [estimate_exec_time_eq_int _ _ _ _ _ _ _ (by decide) (by decide) (by decide)]
  unfold estimate_int ceil_div cpu_total_ops gpu_total_ops gpu_input_data_size
    gpu_output_data_size cpu_positions rows_to_transfer gpu_positions total_output_positions
    gpu_output_rows output_height output_width ops_per_position data_size INT_MAX
  omega

/-- At the same input offloading all 100 rows costs 947 time units. -/
theorem tall_kernel_estimate_all : estimate_exec_time 100 100 70 100 10000 10000 100 = 947 := by
  rw [estimate_exec_time_eq_int _ _ _ _ _ _ _ (by decide) (by decide) (by decide)]
  decide

/-- At the same input offloading no row costs 94169 time units. -/
theorem tall_kernel_estimate_none : estimate_exec_time 100 100 70 100 10000 10000 0 = 94169 := by
  rw [estimate_exec_time_eq_int _ _ _ _ _ _ _ (by decide) (by decide) (by decide)]
  decide

/-- At the same input the exhaustive search offloads all 100 rows. -/
theorem tall_kernel_exhaustive :
    get_recommended_number_offloaded_rows 100 100 70 100 10000 10000 = 100 := by
  obtain ⟨-, h2, h3, -⟩ := exhaustive_isFirstMin 100 100 70 100 10000 10000 (by decide)
    (by decide) tall_kernel_estimate_fits
  have hle := h3 100 (by decide) (le_refl _)
  rw [tall_kernel_estimate_all] at hle
  by_contra hne
  have := tall_kernel_estimate_ge
    (get_recommended_number_offloaded_rows 100 100 70 100 10000 10000) (by omega)
  omega

/-- C3 (failing input): at `M = 100, N = 100, K = 70, cpu_ops = 100, gpu_ops = 10000,
bandwidth = 10000` the cost curve is unimodal on `[0, 100]` (it never increases), yet
`get_recommended_number_offloaded_rows_optimized` returns 0 while
`get_recommended_number_offloaded_rows` returns 100. -/
theorem optimized_ne_exhaustive_on_unimodal_curve :
    Unimodal (estimate_exec_time 100 100 70 100 10000 10000) 100 ∧
      get_recommended_number_offloaded_rows_optimized 100 100 70 100 10000 10000 = 0 ∧
      get_recommended_number_offloaded_rows 100 100 70 100 10000 10000 = 100 := by
  refine ⟨⟨100, by decide, le_refl _, ?_, ?_⟩, ?_, tall_kernel_exhaustive⟩
  · intro r r' h0 h1 h2
    exact tall_kernel_estimate_antitone r r' h0 h1 h2
  · intro r r' h0 h1 h2
    have h : r = r' := by omega
    rw [h]
  · exact optimized_eq_zero_of_tall_kernel 100 100 70 100 10000 10000 (by decide) (by decide)
      (by decide)

/-- C8 (failing input): at `M = 100, N = 100, K = 70, cpu_ops = 100, gpu_ops = 10000,
bandwidth = 10000` the row count returned by
`get_recommended_number_offloaded_rows_optimized` is 0, with estimate 94169, while the
sampled candidate `M = 100` has the strictly smaller estimate 947. -/
theorem optimized_beaten_by_sampled_candidate :
    get_recommended_number_offloaded_rows_optimized 100 100 70 100 10000 10000 = 0 ∧
      estimate_exec_time 100 100 70 100 10000 10000
          (get_recommended_number_offloaded_rows_optimized 100 100 70 100 10000 10000) = 94169 ∧
      estimate_exec_time 100 100 70 100 10000 10000 100 = 947 := by
  have h := optimized_eq_zero_of_tall_kernel 100 100 70 100 10000 10000 (by decide) (by decide)
    (by decide)
  refine ⟨h, ?_, tall_kernel_estimate_all⟩
  rw [h]
  exact tall_kernel_estimate_none

/-! ## Sign and monotonicity of the cost model -/

/-- The number of GPU output rows is never negative. -/
theorem gpu_output_rows_nonneg (M K rows : Int) : 0 ≤ gpu_output_rows M K rows := by
  unfold gpu_output_rows
  omega

/-- For `K ≤ M` the number of GPU output rows is at most the output height. -/
theorem gpu_output_rows_le_height (M K rows : Int) (h : K ≤ M) :
    gpu_output_rows M K rows ≤ output_height M K := by
  unfold gpu_output_rows output_height
  omega

/-- A positive kernel size gives a positive operation count per position. -/
theorem ops_per_position_pos (K : Int) (hK : 0 < K) : 0 < ops_per_position K := by
  unfold ops_per_position
  nlinarith

/-- The GPU operation count is non-negative when the matrix is lower than the kernel
or the output width `N - K + 1` is non-negative. -/
theorem gpu_total_ops_nonneg (M N K rows : Int) (hK : 0 < K) (hgeo : M < K ∨ K ≤ N + 1) :
    0 ≤ gpu_total_ops M N K rows := by
  unfold gpu_total_ops gpu_positions
  rcases hgeo with h | h
  · rw [gpu_output_rows_of_lt M K rows h]
    simp
  · have hW : 0 ≤ output_width N K := by unfold output_width; omega
    exact mul_nonneg (mul_nonneg (gpu_output_rows_nonneg M K rows) hW)
      (le_of_lt (ops_per_position_pos K hK))

/-- C9 (counterexample): all inputs positive, yet the estimate at
`M = 20, N = 1, K = 10, cpu_ops = gpu_ops = bandwidth = 1, rows = 14` is `-8064`. -/
theorem estimate_exec_time_negative :
    estimate_exec_time 20 1 10 1 1 1 14 = -8064 ∧ ¬ (0 ≤ estimate_exec_time 20 1 10 1 1 1 14) := by
  have h : estimate_exec_time 20 1 10 1 1 1 14 = -8064 := by
    rw [estimate_exec_time_eq_int _ _ _ _ _ _ _ (by decide) (by decide) (by decide)]
    decide
  rw [h]
  exact ⟨rfl, by decide⟩

/-- C9 (amended): for positive inputs with `M < K` or `N ≥ K - 1`, and any integer
`rows`, the estimate is non-negative. -/
theorem estimate_exec_time_nonneg (M N K cpu_ops gpu_ops bandwidth rows : Int)
    (hM : 0 < M) (hN : 0 < N) (hK : 0 < K)
    (hc : 0 < cpu_ops) (_hg : 0 < gpu_ops) (hb : 0 < bandwidth)
    (hgeo : M < K ∨ K ≤ N + 1) :
    0 ≤ estimate_exec_time M N K cpu_ops gpu_ops bandwidth rows := by
  unfold estimate_exec_time
  apply Int.ceil_nonneg
  have hcq : (0 : ℚ) < (cpu_ops : ℚ) := by exact_mod_cast hc
  have hbq : (0 : ℚ) < (bandwidth : ℚ) := by exact_mod_cast hb
  by_cases hMK : M < K
  · apply le_max_of_le_right
    have hG := gpu_output_rows_of_lt M K rows hMK
    unfold gpu_total_time transfer_to_gpu_time gpu_compute_time transfer_from_gpu_time
      gpu_total_ops gpu_input_data_size gpu_output_data_size rows_to_transfer gpu_positions
      data_size
    rw [hG]
    have hmin : min (0 + K - 1) M = M := by omega
    rw [hmin]
    simp only [zero_mul, Int.cast_zero, zero_div, add_zero]
    apply div_nonneg _ (le_of_lt hbq)
    have : (0 : Int) ≤ M * N * 4 := by positivity
    exact_mod_cast this
  · apply le_max_of_le_left
    have hKN : K ≤ N + 1 := by
      rcases hgeo with h | h
      · exact absurd h hMK
      · exact h
    unfold cpu_time
    apply div_nonneg _ (le_of_lt hcq)
    have hW : 0 ≤ output_width N K := by unfold output_width; omega
    have hG := gpu_output_rows_le_height M K rows (by omega)
    have : 0 ≤ cpu_total_ops M N K rows := by
      unfold cpu_total_ops cpu_positions total_output_positions gpu_positions
      rw [← sub_mul]
      exact mul_nonneg (mul_nonneg (by omega) hW) (le_of_lt (ops_per_position_pos K hK))
    exact_mod_cast this

/-- Witness of C9 (amended) at the degenerate input `M = 2, N = 10, K = 3,
cpu_ops = 100, gpu_ops = 200, bandwidth = 50, rows = 5`. -/
theorem estimate_exec_time_nonneg_witness : 0 ≤ estimate_exec_time 2 10 3 100 200 50 5 :=
  estimate_exec_time_nonneg 2 10 3 100 200 50 5 (by decide) (by decide) (by decide)
    (by decide) (by decide) (by decide) (Or.inl (by decide))

/-- C10 (counterexample): all inputs positive and `gpu_ops` raised from 17 to 34, yet
the estimate at `M = 100, N = 1, K = 3, cpu_ops = 1, bandwidth = 1, rows = 3` rises
from 7 to 8. -/
theorem estimate_exec_time_gpu_ops_not_monotone :
    estimate_exec_time 100 1 3 1 17 1 3 = 7 ∧ estimate_exec_time 100 1 3 1 34 1 3 = 8 ∧
      ¬ (estimate_exec_time 100 1 3 1 34 1 3 ≤ estimate_exec_time 100 1 3 1 17 1 3) := by
  have h1 : estimate_exec_time 100 1 3 1 17 1 3 = 7 := by
    rw [estimate_exec_time_eq_int _ _ _ _ _ _ _ (by decide) (by decide) (by decide)]
    decide
  have h2 : estimate_exec_time 100 1 3 1 34 1 3 = 8 := by
    rw [estimate_exec_time_eq_int _ _ _ _ _ _ _ (by decide) (by decide) (by decide)]
    decide
  rw [h1, h2]
  exact ⟨rfl, rfl, by decide⟩

/-- C10 (amended): for positive inputs with `M < K` or `N ≥ K - 1`, any integer `rows`
and positive `gpu_ops1 ≤ gpu_ops2`, the estimate with `gpu_ops2` is at most the
estimate with `gpu_ops1`. -/
theorem estimate_exec_time_gpu_ops_monotone (M N K cpu_ops bandwidth rows gpu_ops1 gpu_ops2 : Int)
    (_hM : 0 < M) (_hN : 0 < N) (hK : 0 < K) (_hc : 0 < cpu_ops) (_hb : 0 < bandwidth)
    (hgeo : M < K ∨ K ≤ N + 1) (h1 : 0 < gpu_ops1) (h12 : gpu_ops1 ≤ gpu_ops2) :
    estimate_exec_time M N K cpu_ops gpu_ops2 bandwidth rows
      ≤ estimate_exec_time M N K cpu_ops gpu_ops1 bandwidth rows := by
  unfold estimate_exec_time
  apply Int.ceil_mono
  apply max_le_max (le_refl _)
  unfold gpu_total_time gpu_compute_time
  have hops : (0 : ℚ) ≤ (gpu_total_ops M N K rows : ℚ) := by
    exact_mod_cast gpu_total_ops_nonneg M N K rows hK hgeo
  have h1q : (0 : ℚ) < (gpu_ops1 : ℚ) := by exact_mod_cast h1
  have h12q : (gpu_ops1 : ℚ) ≤ (gpu_ops2 : ℚ) := by exact_mod_cast h12
  have hdiv : (gpu_total_ops M N K rows : ℚ) / (gpu_ops2 : ℚ)
      ≤ (gpu_total_ops M N K rows : ℚ) / (gpu_ops1 : ℚ) :=
    div_le_div_of_nonneg_left hops h1q h12q
  linarith

/-- Witness of C10 (amended): the test input `M = 100, N = 100, K = 3, cpu_ops = 500,
bandwidth = 200, rows = 50` with `gpu_ops` 1000 against 2000. -/
theorem estimate_exec_time_gpu_ops_monotone_witness :
    estimate_exec_time 100 100 3 500 2000 200 50 ≤ estimate_exec_time 100 100 3 500 1000 200 50 :=
  estimate_exec_time_gpu_ops_monotone 100 100 3 500 200 50 1000 2000 (by decide) (by decide)
    (by decide) (by decide) (by decide) (Or.inr (by decide)) (by decide) (by decide)

/-! ## The large test input `M = 1000, N = 1000, K = 5` -/

/-- At `M = 1000, N = 1000, K = 5, cpu_ops = 500, gpu_ops = 2000, bandwidth = 100` the
narrowing loop ends on the bracket `[484, 486]`. -/
theorem large_test_narrow :
    narrow (estimate_int 1000 1000 5 500 2000 100) 0 1000 = (484, 486) := by
  iterate 16
    rw [narrow_step _ _ _ (by decide)]
    first
      | rw [if_pos (by decide)]
      | rw [if_neg (by decide)]
    norm_num only
  rw [narrow_stop _ _ _ (by decide)]

/-- At the large test input the accelerated search returns 485. -/
theorem large_test_optimized :
    get_recommended_number_offloaded_rows_optimized 1000 1000 5 500 2000 100 = 485 := by
  unfold get_recommended_number_offloaded_rows_optimized
  rw [if_neg (by decide), if_neg (by decide)]
  simp only
  rw [estimate_exec_time_fun_eq_int 1000 1000 5 500 2000 100 (by decide) (by decide) (by decide),
    large_test_narrow]
  decide

/-- At the large test input the returned row count 485 costs no more than any sampled
candidate of the test: `0, 485/4, 485/2, 3*485/4, 484, 486, min(970, 1000),
min(1940, 1000), 1000`. -/
theorem large_test_sampled (p : Int)
    (hp : p = 0 ∨ p = 121 ∨ p = 242 ∨ p = 363 ∨ p = 484 ∨ p = 486 ∨ p = 970 ∨ p = 1000) :
    estimate_exec_time 1000 1000 5 500 2000 100 485
      ≤ estimate_exec_time 1000 1000 5 500 2000 100 p := by
  rw [estimate_exec_time_fun_eq_int 1000 1000 5 500 2000 100 (by decide) (by decide) (by decide)]
  rcases hp with h | h | h | h | h | h | h | h <;> subst h <;> decide

/-! ## Bandwidth, clamping and positivity of the cost model -/

/-- The number of input rows to transfer is non-negative for positive `M` and `K`. -/
theorem rows_to_transfer_nonneg (M K rows : Int) (hM : 0 < M) (hK : 0 < K) :
    0 ≤ rows_to_transfer M K rows := by
  unfold rows_to_transfer gpu_output_rows
  omega

/-- The number of GPU output positions is non-negative when the matrix is lower than the
kernel or the output width `N - K + 1` is non-negative. -/
theorem gpu_positions_nonneg (M N K rows : Int) (hgeo : M < K ∨ K ≤ N + 1) :
    0 ≤ gpu_positions M N K rows := by
  unfold gpu_positions
  rcases hgeo with h | h
  · rw [gpu_output_rows_of_lt M K rows h]
    simp
  · have hW : 0 ≤ output_width N K := by unfold output_width; omega
    exact mul_nonneg (gpu_output_rows_nonneg M K rows) hW

/-- C11 (counterexample): all inputs positive and `bandwidth` raised from 1 to 2, yet the
estimate at `M = 20, N = 1, K = 10, cpu_ops = 1, gpu_ops = 1, rows = 14` rises from
`-8064` to `-8012`. -/
theorem estimate_exec_time_bandwidth_not_monotone :
    estimate_exec_time 20 1 10 1 1 1 14 = -8064 ∧ estimate_exec_time 20 1 10 1 1 2 14 = -8012 ∧
      ¬ (estimate_exec_time 20 1 10 1 1 2 14 ≤ estimate_exec_time 20 1 10 1 1 1 14) := by
  have h1 : estimate_exec_time 20 1 10 1 1 1 14 = -8064 := by
    rw [estimate_exec_time_eq_int _ _ _ _ _ _ _ (by decide) (by decide) (by decide)]
    decide
  have h2 : estimate_exec_time 20 1 10 1 1 2 14 = -8012 := by
    rw [estimate_exec_time_eq_int _ _ _ _ _ _ _ (by decide) (by decide) (by decide)]
    decide
  rw [h1, h2]
  exact ⟨rfl, rfl, by decide⟩

/-- C11 (amended): for positive inputs with `M < K` or `N ≥ K - 1`, any integer `rows`
and positive `bandwidth1 ≤ bandwidth2`, the estimate with `bandwidth2` is at most the
estimate with `bandwidth1`. -/
theorem estimate_exec_time_bandwidth_monotone
    (M N K cpu_ops gpu_ops rows bandwidth1 bandwidth2 : Int)
    (hM : 0 < M) (hN : 0 < N) (hK : 0 < K) (_hc : 0 < cpu_ops) (_hg : 0 < gpu_ops)
    (hgeo : M < K ∨ K ≤ N + 1) (h1 : 0 < bandwidth1) (h12 : bandwidth1 ≤ bandwidth2) :
    estimate_exec_time M N K cpu_ops gpu_ops bandwidth2 rows
      ≤ estimate_exec_time M N K cpu_ops gpu_ops bandwidth1 rows := by
  unfold estimate_exec_time
  apply Int.ceil_mono
  apply max_le_max (le_refl _)
  unfold gpu_total_time transfer_to_gpu_time transfer_from_gpu_time
  have hin : (0 : ℚ) ≤ (gpu_input_data_size M N K rows : ℚ) := by
    have : 0 ≤ gpu_input_data_size M N K rows := by
      unfold gpu_input_data_size data_size
      exact mul_nonneg (mul_nonneg (rows_to_transfer_nonneg M K rows hM hK) (le_of_lt hN))
        (by decide)
    exact_mod_cast this
  have hout : (0 : ℚ) ≤ (gpu_output_data_size M N K rows : ℚ) := by
    have : 0 ≤ gpu_output_data_size M N K rows := by
      unfold gpu_output_data_size data_size
      exact mul_nonneg (gpu_positions_nonneg M N K rows hgeo) (by decide)
    exact_mod_cast this
  have h1q : (0 : ℚ) < (bandwidth1 : ℚ) := by exact_mod_cast h1
  have h12q : (bandwidth1 : ℚ) ≤ (bandwidth2 : ℚ) := by exact_mod_cast h12
  have hdin := div_le_div_of_nonneg_left hin h1q h12q
  have hdout := div_le_div_of_nonneg_left hout h1q h12q
  linarith

/-- Witness of C11 (amended): the test input `M = 100, N = 100, K = 3, cpu_ops = 500,
gpu_ops = 1000, rows = 50` with `bandwidth` 100 against 200. -/
theorem estimate_exec_time_bandwidth_monotone_witness :
    estimate_exec_time 100 100 3 500 1000 200 50 ≤ estimate_exec_time 100 100 3 500 1000 100 50 :=
  estimate_exec_time_bandwidth_monotone 100 100 3 500 1000 50 100 200 (by decide) (by decide)
    (by decide) (by decide) (by decide) (Or.inr (by decide)) (by decide) (by decide)

/-- C12: for `K ≥ 1` the estimate at any integer `rows` equals the estimate at
`clamp(rows, 0, M)`, and for every `rows < K` it equals the estimate at `rows = 0`. -/
theorem estimate_exec_time_clamped (M N K cpu_ops gpu_ops bandwidth rows : Int) (hK : 1 ≤ K) :
    estimate_exec_time M N K cpu_ops gpu_ops bandwidth rows
        = estimate_exec_time M N K cpu_ops gpu_ops bandwidth (clamp rows 0 M) ∧
      (rows < K → estimate_exec_time M N K cpu_ops gpu_ops bandwidth rows
        = estimate_exec_time M N K cpu_ops gpu_ops bandwidth 0) := by
  constructor
  · apply estimate_exec_time_congr
    unfold gpu_output_rows output_height clamp
    split_ifs <;> omega
  · intro hr
    apply estimate_exec_time_congr
    rw [gpu_output_rows_of_lt_kernel M K rows hr, gpu_output_rows_of_lt_kernel M K 0 (by omega)]

/-- Witness of C12 at `M = 100, N = 100, K = 3, cpu_ops = 4, gpu_ops = 10, bandwidth = 2`
with the out-of-range row count `rows = 250`, and the sub-kernel row count `rows = 2`. -/
theorem estimate_exec_time_clamped_witness :
    (estimate_exec_time 100 100 3 4 10 2 250
        = estimate_exec_time 100 100 3 4 10 2 (clamp 250 0 100) ∧
      ((250 : Int) < 3 → estimate_exec_time 100 100 3 4 10 2 250
        = estimate_exec_time 100 100 3 4 10 2 0)) ∧
    estimate_exec_time 100 100 3 4 10 2 2 = estimate_exec_time 100 100 3 4 10 2 0 :=
  ⟨estimate_exec_time_clamped 100 100 3 4 10 2 250 (by decide),
    (estimate_exec_time_clamped 100 100 3 4 10 2 2 (by decide)).2 (by decide)⟩

/-- C18: for positive inputs with `N ≥ K` and any integer `rows` the estimate is at
least 1. -/
theorem estimate_exec_time_pos (M N K cpu_ops gpu_ops bandwidth rows : Int)
    (hM : 0 < M) (hN : 0 < N) (hK : 0 < K)
    (hc : 0 < cpu_ops) (hg : 0 < gpu_ops) (hb : 0 < bandwidth) (hKN : K ≤ N) :
    1 ≤ estimate_exec_time M N K cpu_ops gpu_ops bandwidth rows := by
  have hcq : (0 : ℚ) < (cpu_ops : ℚ) := by exact_mod_cast hc
  have hgq : (0 : ℚ) < (gpu_ops : ℚ) := by exact_mod_cast hg
  have hbq : (0 : ℚ) < (bandwidth : ℚ) := by exact_mod_cast hb
  have hW : 0 < output_width N K := by unfold output_width; omega
  have hP := ops_per_position_pos K hK
  have hG0 := gpu_output_rows_nonneg M K rows
  have hpos : 0 < estimate_exec_time M N K cpu_ops gpu_ops bandwidth rows := by
    unfold estimate_exec_time
    rw [Int.ceil_pos, lt_max_iff]
    by_cases hfull : gpu_output_rows M K rows < output_height M K
    · left
      unfold cpu_time
      apply div_pos _ hcq
      have : 0 < cpu_total_ops M N K rows := by
        unfold cpu_total_ops cpu_positions total_output_positions gpu_positions
        rw [← sub_mul]
        exact mul_pos (mul_pos (by omega) hW) hP
      exact_mod_cast this
    · right
      have hrt : 0 < rows_to_transfer M K rows := by
        unfold rows_to_transfer
        unfold gpu_output_rows output_height at hfull hG0 ⊢
        omega
      have hin : (0 : ℚ) < (gpu_input_data_size M N K rows : ℚ) := by
        have : 0 < gpu_input_data_size M N K rows := by
          unfold gpu_input_data_size data_size
          exact mul_pos (mul_pos hrt hN) (by decide)
        exact_mod_cast this
      have hgp : 0 ≤ gpu_positions M N K rows :=
        gpu_positions_nonneg M N K rows (Or.inr (by omega))
      have hops : (0 : ℚ) ≤ (gpu_total_ops M N K rows : ℚ) := by
        have : 0 ≤ gpu_total_ops M N K rows := by
          unfold gpu_total_ops
          exact mul_nonneg hgp (le_of_lt hP)
        exact_mod_cast this
      have hout : (0 : ℚ) ≤ (gpu_output_data_size M N K rows : ℚ) := by
        have : 0 ≤ gpu_output_data_size M N K rows := by
          unfold gpu_output_data_size data_size
          exact mul_nonneg hgp (by decide)
        exact_mod_cast this
      unfold gpu_total_time transfer_to_gpu_time gpu_compute_time transfer_from_gpu_time
      have e1 := div_pos hin hbq
      have e2 := div_nonneg hops (le_of_lt hgq)
      have e3 := div_nonneg hout (le_of_lt hbq)
      linarith
  omega

/-- Witness of C18 at the three test inputs `(2,10,3,100,200,50,5)`,
`(3,10,3,100,200,50,3)` and `(100,100,3,4,10,2,3)`. -/
theorem estimate_exec_time_pos_witness :
    1 ≤ estimate_exec_time 2 10 3 100 200 50 5 ∧ 1 ≤ estimate_exec_time 3 10 3 100 200 50 3 ∧
      1 ≤ estimate_exec_time 100 100 3 4 10 2 3 :=
  ⟨estimate_exec_time_pos 2 10 3 100 200 50 5 (by decide) (by decide) (by decide) (by decide)
      (by decide) (by decide) (by decide),
    estimate_exec_time_pos 3 10 3 100 200 50 3 (by decide) (by decide) (by decide) (by decide)
      (by decide) (by decide) (by decide),
    estimate_exec_time_pos 100 100 3 4 10 2 3 (by decide) (by decide) (by decide) (by decide)
      (by decide) (by decide) (by decide)⟩

/-! ## Further properties of the exhaustive search -/

/-- When no row count of `0..M` costs less than row count 0, the scan from the sentinel
`(0, INT_MAX)` returns 0. -/
theorem scan_sentinel_eq_zero (time : Int → Int) (M : Int)
    (hmin : ∀ r, 0 ≤ r → r ≤ M → time 0 ≤ time r) :
    (scan time 0 M (0, INT_MAX)).1 = 0 := by
  have h := scan_fold_inv time 0 0 INT_MAX (M + 1 - 0).toNat
  simp only at h
  unfold scan
  generalize (List.range (M + 1 - 0).toNat).foldl
    (fun s (i : Nat) => scan_step time s (0 + (i : Int))) (0, INT_MAX) = st at h
  obtain ⟨-, -, h3⟩ := h
  rcases h3 with h | ⟨i, hi, hb, hm, -, hprev⟩
  · rw [h]
  · rw [hb]
    rcases Nat.eq_zero_or_pos i with h0 | h0
    · rw [h0]; rfl
    · exfalso
      have hlt := hprev 0 h0
      rw [hm] at hlt
      have hle := hmin (0 + (i : Int)) (by omega) (by omega)
      simp only [Nat.cast_zero, add_zero] at hlt
      omega

/-- The scan from the sentinel `(0, INT_MAX)` never returns a row of an initial plateau
`1..p` on which the cost equals the cost of row 0. -/
theorem scan_sentinel_skips_plateau (time : Int → Int) (M p : Int)
    (hplat : ∀ r, 0 ≤ r → r ≤ p → time r = time 0) :
    (scan time 0 M (0, INT_MAX)).1 = 0 ∨ p < (scan time 0 M (0, INT_MAX)).1 := by
  have h := scan_fold_inv time 0 0 INT_MAX (M + 1 - 0).toNat
  simp only at h
  unfold scan
  generalize (List.range (M + 1 - 0).toNat).foldl
    (fun s (i : Nat) => scan_step time s (0 + (i : Int))) (0, INT_MAX) = st at h
  obtain ⟨-, -, h3⟩ := h
  rcases h3 with h | ⟨i, hi, hb, hm, -, hprev⟩
  · left; rw [h]
  · rw [hb]
    rcases Nat.eq_zero_or_pos i with h0 | h0
    · left; rw [h0]; rfl
    · right
      by_contra hle
      have hlt := hprev 0 h0
      rw [hm, hplat (0 + (i : Int)) (by omega) (by omega)] at hlt
      simp only [Nat.cast_zero, add_zero] at hlt
      exact absurd hlt (lt_irrefl _)

/-- C20: for positive inputs with `K ≤ M`, `get_recommended_number_offloaded_rows`
returns 0 or a row count of at least `K`, never a value in `[1, K-1]`. -/
theorem exhaustive_never_sub_kernel (M N K cpu_ops gpu_ops bandwidth : Int)
    (_hM : 0 < M) (_hN : 0 < N) (hK : 0 < K)
    (_hc : 0 < cpu_ops) (_hg : 0 < gpu_ops) (_hb : 0 < bandwidth) (hKM : K ≤ M) :
    get_recommended_number_offloaded_rows M N K cpu_ops gpu_ops bandwidth = 0 ∨
      K ≤ get_recommended_number_offloaded_rows M N K cpu_ops gpu_ops bandwidth := by
  unfold get_recommended_number_offloaded_rows
  rw [if_neg (not_lt.mpr hKM)]
  rcases scan_sentinel_skips_plateau (estimate_exec_time M N K cpu_ops gpu_ops bandwidth) M
    (K - 1) (fun r _ hr => estimate_exec_time_congr M N K cpu_ops gpu_ops bandwidth r 0
      (by rw [gpu_output_rows_of_lt_kernel M K r (by omega),
        gpu_output_rows_of_lt_kernel M K 0 hK])) with h | h
  · exact Or.inl h
  · exact Or.inr (by omega)

/-- Witness of C20 at `M = 10, N = 10, K = 3, cpu_ops = 100, gpu_ops = 200,
bandwidth = 50`. -/
theorem exhaustive_never_sub_kernel_witness :
    get_recommended_number_offloaded_rows 10 10 3 100 200 50 = 0 ∨
      3 ≤ get_recommended_number_offloaded_rows 10 10 3 100 200 50 :=
  exhaustive_never_sub_kernel 10 10 3 100 200 50 (by decide) (by decide) (by decide)
    (by decide) (by decide) (by decide) (by decide)

/-- At `M = 20, N = 20, K = 3, cpu_ops = 100, gpu_ops = 10000, bandwidth = 10000` the
exhaustive scan, evaluated row by row, ends with `best_rows = 20`. -/
theorem fast_gpu_scan :
    (scan (estimate_int 20 20 3 100 10000 10000) 0 20 (0, INT_MAX)).1 = 20 := by
  set_option maxRecDepth 100000 in
  decide

/-- C15: at `M = 20, N = 20, K = 3, cpu_ops = 100, gpu_ops = 10000, bandwidth = 10000`
`get_recommended_number_offloaded_rows` returns 20, which is at least `M / 2 = 10`. -/
theorem exhaustive_fast_gpu_offloads_half :
    get_recommended_number_offloaded_rows 20 20 3 100 10000 10000 = 20 ∧
      (20 : Int) / 2 ≤ get_recommended_number_offloaded_rows 20 20 3 100 10000 10000 := by
  have h : get_recommended_number_offloaded_rows 20 20 3 100 10000 10000 = 20 := by
    unfold get_recommended_number_offloaded_rows
    rw [estimate_exec_time_fun_eq_int 20 20 3 100 10000 10000 (by decide) (by decide)
      (by decide), if_neg (by decide)]
    exact fast_gpu_scan
  rw [h]
  exact ⟨rfl, by decide⟩

/-- C17: for positive inputs with `K ≤ M` and `K ≤ N` such that transferring `K` input
rows takes at least the all-CPU compute time,
`4*K*N/bandwidth ≥ (M-K+1)*(N-K+1)*(2*K*K-1)/cpu_ops`,
`get_recommended_number_offloaded_rows` returns 0, hence at most `M/2` and `M/4`. -/
theorem exhaustive_no_offload_when_transfer_dominates (M N K cpu_ops gpu_ops bandwidth : Int)
    (_hM : 0 < M) (hN : 0 < N) (hK : 0 < K)
    (_hc : 0 < cpu_ops) (hg : 0 < gpu_ops) (hb : 0 < bandwidth) (hKM : K ≤ M) (hKN : K ≤ N)
    (hpay : (((M - K + 1) * (N - K + 1) * (2 * K * K - 1) : Int) : ℚ) / (cpu_ops : ℚ)
      ≤ ((4 * K * N : Int) : ℚ) / (bandwidth : ℚ)) :
    get_recommended_number_offloaded_rows M N K cpu_ops gpu_ops bandwidth = 0 ∧
      get_recommended_number_offloaded_rows M N K cpu_ops gpu_ops bandwidth ≤ M / 2 ∧
      get_recommended_number_offloaded_rows M N K cpu_ops gpu_ops bandwidth ≤ M / 4 := by
  have hgq : (0 : ℚ) < (gpu_ops : ℚ) := by exact_mod_cast hg
  have hbq : (0 : ℚ) < (bandwidth : ℚ) := by exact_mod_cast hb
  have hG0 : gpu_output_rows M K 0 = 0 := gpu_output_rows_of_lt_kernel M K 0 hK
  have hmin : ∀ r, 0 ≤ r → r ≤ M → estimate_exec_time M N K cpu_ops gpu_ops bandwidth 0
      ≤ estimate_exec_time M N K cpu_ops gpu_ops bandwidth r := by
    intro r _ _
    by_cases hG : gpu_output_rows M K r = 0
    · exact le_of_eq (estimate_exec_time_congr M N K cpu_ops gpu_ops bandwidth 0 r
        (by rw [hG0, hG]))
    · have hGpos : 1 ≤ gpu_output_rows M K r := by
        have := gpu_output_rows_nonneg M K r
        omega
      have hgp : 0 ≤ gpu_positions M N K r := gpu_positions_nonneg M N K r (Or.inr (by omega))
      have hops : (0 : ℚ) ≤ (gpu_total_ops M N K r : ℚ) := by
        have : 0 ≤ gpu_total_ops M N K r := by
          unfold gpu_total_ops
          exact mul_nonneg hgp (le_of_lt (ops_per_position_pos K hK))
        exact_mod_cast this
      have hout : (0 : ℚ) ≤ (gpu_output_data_size M N K r : ℚ) := by
        have : 0 ≤ gpu_output_data_size M N K r := by
          unfold gpu_output_data_size data_size
          exact mul_nonneg hgp (by decide)
        exact_mod_cast this
      have hrt : K ≤ rows_to_transfer M K r := by
        unfold rows_to_transfer
        omega
      have hin : ((4 * K * N : Int) : ℚ) ≤ (gpu_input_data_size M N K r : ℚ) := by
        have : 4 * K * N ≤ gpu_input_data_size M N K r := by
          unfold gpu_input_data_size data_size
          nlinarith
        exact_mod_cast this
      have hin0 : (gpu_input_data_size M N K 0 : ℚ) ≤ ((4 * K * N : Int) : ℚ) := by
        have : gpu_input_data_size M N K 0 ≤ 4 * K * N := by
          unfold gpu_input_data_size data_size rows_to_transfer
          rw [hG0]
          have : min (0 + K - 1) M = K - 1 := by omega
          rw [this]
          nlinarith
        exact_mod_cast this
      have hkey : ((4 * K * N : Int) : ℚ) / (bandwidth : ℚ)
          ≤ gpu_total_time M N K gpu_ops bandwidth r := by
        unfold gpu_total_time transfer_to_gpu_time gpu_compute_time transfer_from_gpu_time
        have e1 := div_le_div_of_nonneg_right hin (le_of_lt hbq)
        have e2 := div_nonneg hops (le_of_lt hgq)
        have e3 := div_nonneg hout (le_of_lt hbq)
        linarith
      have hc0 : cpu_time M N K cpu_ops 0 ≤ ((4 * K * N : Int) : ℚ) / (bandwidth : ℚ) := by
        refine le_trans (le_of_eq ?_) hpay
        unfold cpu_time cpu_total_ops cpu_positions total_output_positions gpu_positions
          output_height output_width ops_per_position
        rw [hG0]
        congr 1
        push_cast
        ring
      have hg0 : gpu_total_time M N K gpu_ops bandwidth 0
          ≤ ((4 * K * N : Int) : ℚ) / (bandwidth : ℚ) := by
        unfold gpu_total_time transfer_to_gpu_time gpu_compute_time transfer_from_gpu_time
          gpu_total_ops gpu_output_data_size gpu_positions
        rw [hG0]
        simp only [zero_mul, Int.cast_zero, zero_div, add_zero]
        exact div_le_div_of_nonneg_right hin0 (le_of_lt hbq)
      unfold estimate_exec_time
      apply Int.ceil_mono
      exact max_le (le_max_of_le_right (le_trans hc0 hkey))
        (le_max_of_le_right (le_trans hg0 hkey))
  have h0 : get_recommended_number_offloaded_rows M N K cpu_ops gpu_ops bandwidth = 0 := by
    unfold get_recommended_number_offloaded_rows
    rw [if_neg (not_lt.mpr hKM)]
    exact scan_sentinel_eq_zero _ M hmin
  rw [h0]
  exact ⟨rfl, by omega, by omega⟩

/-- Witness of C17 at the two test inputs `M = 20, N = 20, K = 3` with
`cpu_ops = 10000, gpu_ops = 100, bandwidth = 100` and with
`cpu_ops = 100, gpu_ops = 1000, bandwidth = 1`. -/
theorem exhaustive_no_offload_when_transfer_dominates_witness :
    (get_recommended_number_offloaded_rows 20 20 3 10000 100 100 = 0 ∧
      get_recommended_number_offloaded_rows 20 20 3 10000 100 100 ≤ 20 / 2 ∧
      get_recommended_number_offloaded_rows 20 20 3 10000 100 100 ≤ 20 / 4) ∧
    (get_recommended_number_offloaded_rows 20 20 3 100 1000 1 = 0 ∧
      get_recommended_number_offloaded_rows 20 20 3 100 1000 1 ≤ 20 / 2 ∧
      get_recommended_number_offloaded_rows 20 20 3 100 1000 1 ≤ 20 / 4) :=
  ⟨exhaustive_no_offload_when_transfer_dominates 20 20 3 10000 100 100 (by decide) (by decide)
      (by decide) (by decide) (by decide) (by decide) (by decide) (by decide) (by norm_num),
    exhaustive_no_offload_when_transfer_dominates 20 20 3 100 1000 1 (by decide) (by decide)
      (by decide) (by decide) (by decide) (by decide) (by decide) (by decide) (by norm_num)⟩

/-! ## The accelerated search on a strictly descending, then non-decreasing curve -/

/-- A first minimiser is unique. -/
theorem isFirstMin_unique (time : Int → Int) (lo hi b c : Int)
    (hb : IsFirstMin time lo hi b) (hc : IsFirstMin time lo hi c) : b = c := by
  obtain ⟨hb1, hb2, hb3, hb4⟩ := hb
  obtain ⟨hc1, hc2, hc3, hc4⟩ := hc
  rcases lt_trichotomy b c with h | h | h
  · exact absurd (hc4 b hb1 h) (not_lt.mpr (hb3 c hc1 hc2))
  · exact h
  · exact absurd (hb4 c hc1 h) (not_lt.mpr (hc3 b hb1 hb2))

/-- When the cost strictly decreases up to `m` and does not decrease after it, `m` is the
first minimiser on every bracket of `0..M` that contains it. -/
theorem isFirstMin_of_descent (time : Int → Int) (M m lo hi : Int)
    (hdec : ∀ r r', 0 ≤ r → r < r' → r' ≤ m → time r' < time r)
    (hinc : ∀ r r', m ≤ r → r ≤ r' → r' ≤ M → time r ≤ time r')
    (h0 : 0 ≤ lo) (h1 : lo ≤ m) (h2 : m ≤ hi) (h3 : hi ≤ M) :
    IsFirstMin time lo hi m := by
  refine ⟨h1, h2, ?_, ?_⟩
  · intro r hr1 hr2
    rcases lt_or_le r m with h | h
    · exact le_of_lt (hdec r m (by omega) h (le_refl _))
    · exact hinc m r (le_refl _) h (by omega)
  · intro r hr1 hr2
    exact hdec r m (by omega) hr2 (le_refl _)

/-- When the cost strictly decreases up to `m` and does not decrease after it, the
narrowing loop keeps `m` inside the bracket. -/
theorem narrow_keeps_minimum (time : Int → Int) (M m : Int)
    (hdec : ∀ r r', 0 ≤ r → r < r' → r' ≤ m → time r' < time r)
    (hinc : ∀ r r', m ≤ r → r ≤ r' → r' ≤ M → time r ≤ time r') (n : Nat) :
    ∀ left right : Int, 0 ≤ left → left ≤ m → m ≤ right → right ≤ M →
      (right - left).toNat ≤ n →
      (narrow time left right).1 ≤ m ∧ m ≤ (narrow time left right).2 := by
  induction n with
  | zero =>
    intro left right _ h1 h2 _ hn
    rw [narrow_stop time left right (by omega)]
    exact ⟨h1, h2⟩
  | succ n ih =>
    intro left right h0 h1 h2 h3 hn
    by_cases hw : right - left > 2
    · rw [narrow_step time left right hw]
      split
      · rename_i hle
        refine ih left (right - (right - left) / 3) h0 h1 ?_ (by omega) (by omega)
        by_contra hlt
        have := hdec (left + (right - left) / 3) (right - (right - left) / 3) (by omega)
          (by omega) (by omega)
        omega
      · rename_i hle
        refine ih (left + (right - left) / 3) right (by omega) ?_ h2 h3 (by omega)
        by_contra hlt
        have := hinc (left + (right - left) / 3) (right - (right - left) / 3) (by omega)
          (by omega) (by omega)
        exact hle this
    · rw [narrow_stop time left right hw]
      exact ⟨h1, h2⟩

/-- For `M ≥ 100`, `K ≤ M` and an estimate that strictly decreases up to `m` and does not
decrease after it, the accelerated search returns `m`. -/
theorem optimized_eq_of_descent (M N K cpu_ops gpu_ops bandwidth m : Int)
    (hM : 100 ≤ M) (hKM : K ≤ M) (hm0 : 0 ≤ m) (hmM : m ≤ M)
    (hdec : ∀ r r', 0 ≤ r → r < r' → r' ≤ m →
      estimate_exec_time M N K cpu_ops gpu_ops bandwidth r'
        < estimate_exec_time M N K cpu_ops gpu_ops bandwidth r)
    (hinc : ∀ r r', m ≤ r → r ≤ r' → r' ≤ M →
      estimate_exec_time M N K cpu_ops gpu_ops bandwidth r
        ≤ estimate_exec_time M N K cpu_ops gpu_ops bandwidth r') :
    get_recommended_number_offloaded_rows_optimized M N K cpu_ops gpu_ops bandwidth = m := by
  unfold get_recommended_number_offloaded_rows_optimized
  rw [if_neg (not_lt.mpr hKM), if_neg (by omega)]
  simp only
  generalize estimate_exec_time M N K cpu_ops gpu_ops bandwidth = time at hdec hinc ⊢
  have hb := narrow_bounds time M.toNat 0 M (by omega) (by omega)
  have hk := narrow_keeps_minimum time M m hdec hinc M.toNat 0 M (le_refl _) hm0 hmM
    (le_refl _) (by omega)
  have hfm := scan_final_isFirstMin time (narrow time 0 M).1 (narrow time 0 M).2 hb.2.1
  exact isFirstMin_unique time _ _ _ _ hfm
    (isFirstMin_of_descent time M m _ _ hdec hinc hb.1 hk.1 hk.2 hb.2.2.1)

/-- C16: for positive inputs with `M ≥ 100`, `K ≤ M`, `int`-valued estimates and a cost
curve strictly decreasing on `[0, m]` and strictly increasing on `[m, M]`,
`get_recommended_number_offloaded_rows_optimized` returns `m`, so does
`get_recommended_number_offloaded_rows`, and `m` is the unique global minimiser. -/
theorem optimized_returns_strict_minimiser (M N K cpu_ops gpu_ops bandwidth m : Int)
    (hM : 100 ≤ M) (_hN : 0 < N) (_hK : 0 < K)
    (_hc : 0 < cpu_ops) (_hg : 0 < gpu_ops) (_hb : 0 < bandwidth) (hKM : K ≤ M)
    (hm0 : 0 ≤ m) (hmM : m ≤ M)
    (hdec : ∀ r r', 0 ≤ r → r < r' → r' ≤ m →
      estimate_exec_time M N K cpu_ops gpu_ops bandwidth r'
        < estimate_exec_time M N K cpu_ops gpu_ops bandwidth r)
    (hinc : ∀ r r', m ≤ r → r < r' → r' ≤ M →
      estimate_exec_time M N K cpu_ops gpu_ops bandwidth r
        < estimate_exec_time M N K cpu_ops gpu_ops bandwidth r')
    (hfit : ∀ r, 0 ≤ r → r ≤ M →
      estimate_exec_time M N K cpu_ops gpu_ops bandwidth r ≤ INT_MAX) :
    get_recommended_number_offloaded_rows_optimized M N K cpu_ops gpu_ops bandwidth = m ∧
      get_recommended_number_offloaded_rows M N K cpu_ops gpu_ops bandwidth = m ∧
      (∀ r, 0 ≤ r → r ≤ M → r ≠ m →
        estimate_exec_time M N K cpu_ops gpu_ops bandwidth m
          < estimate_exec_time M N K cpu_ops gpu_ops bandwidth r) := by
  have hinc' : ∀ r r', m ≤ r → r ≤ r' → r' ≤ M →
      estimate_exec_time M N K cpu_ops gpu_ops bandwidth r
        ≤ estimate_exec_time M N K cpu_ops gpu_ops bandwidth r' := by
    intro r r' h1 h2 h3
    rcases eq_or_lt_of_le h2 with h | h
    · rw [h]
    · exact le_of_lt (hinc r r' h1 h h3)
  refine ⟨optimized_eq_of_descent M N K cpu_ops gpu_ops bandwidth m hM hKM hm0 hmM hdec hinc',
    ?_, ?_⟩
  · exact isFirstMin_unique _ 0 M _ _
      (exhaustive_isFirstMin M N K cpu_ops gpu_ops bandwidth (by omega) hKM hfit)
      (isFirstMin_of_descent _ M m 0 M hdec hinc' (le_refl _) hm0 hmM (le_refl _))
  · intro r hr0 hrM hne
    rcases lt_or_gt_of_ne hne with h | h
    · exact hdec r m hr0 h (le_refl _)
    · exact hinc m r (le_refl _) h hrM

/-- The estimate at `M = 100, N = 1, K = 1, cpu_ops = 1, gpu_ops = 1, bandwidth = 8` is
`max(100 - r, 2 r)` on the row counts `0..100`. -/
theorem vee_estimate (r : Int) (h0 : 0 ≤ r) (h1 : r ≤ 100) :
    estimate_exec_time 100 1 1 1 1 8 r = max (100 - r) (2 * r) := by
  rw [estimate_exec_time_eq_int _ _ _ _ _ _ _ (by decide) (by decide) (by decide)]
  unfold estimate_int ceil_div cpu_total_ops gpu_total_ops gpu_input_data_size
    gpu_output_data_size cpu_positions rows_to_transfer gpu_positions total_output_positions
    gpu_output_rows output_height output_width ops_per_position data_size
  omega

/-- Witness of C16 at `M = 100, N = 1, K = 1, cpu_ops = 1, gpu_ops = 1, bandwidth = 8`,
whose estimate `max(100 - r, 2 r)` has its strict minimum at `m = 33`. -/
theorem optimized_returns_strict_minimiser_witness :
    get_recommended_number_offloaded_rows_optimized 100 1 1 1 1 8 = 33 ∧
      get_recommended_number_offloaded_rows 100 1 1 1 1 8 = 33 ∧
      (∀ r, 0 ≤ r → r ≤ 100 → r ≠ 33 →
        estimate_exec_time 100 1 1 1 1 8 33 < estimate_exec_time 100 1 1 1 1 8 r) :=
  optimized_returns_strict_minimiser 100 1 1 1 1 8 33 (by decide) (by decide) (by decide)
    (by decide) (by decide) (by decide) (by decide) (by decide) (by decide)
    (fun r r' h0 h1 h2 => by
      rw [vee_estimate r h0 (by omega), vee_estimate r' (by omega) (by omega)]; omega)
    (fun r r' h0 h1 h2 => by
      rw [vee_estimate r (by omega) (by omega), vee_estimate r' (by omega) h2]; omega)
    (fun r h0 h1 => by
      rw [vee_estimate r h0 h1]; unfold INT_MAX; omega)

/-- For a kernel size `K ≥ 2` the estimate is the same at row counts 0 and 1, so no cost
curve on `[0, M]` with `M ≥ 1` strictly decreases up to some `m` and strictly increases
after it. -/
theorem no_strict_descent_for_tall_kernel (M N K cpu_ops gpu_ops bandwidth m : Int)
    (hK : 2 ≤ K) (hM : 1 ≤ M) (hm0 : 0 ≤ m)
    (hdec : ∀ r r', 0 ≤ r → r < r' → r' ≤ m →
      estimate_exec_time M N K cpu_ops gpu_ops bandwidth r'
        < estimate_exec_time M N K cpu_ops gpu_ops bandwidth r)
    (hinc : ∀ r r', m ≤ r → r < r' → r' ≤ M →
      estimate_exec_time M N K cpu_ops gpu_ops bandwidth r
        < estimate_exec_time M N K cpu_ops gpu_ops bandwidth r') : False := by
  have heq : estimate_exec_time M N K cpu_ops gpu_ops bandwidth 1
      = estimate_exec_time M N K cpu_ops gpu_ops bandwidth 0 :=
    estimate_exec_time_congr M N K cpu_ops gpu_ops bandwidth 1 0
      (by rw [gpu_output_rows_of_lt_kernel M K 1 (by omega),
        gpu_output_rows_of_lt_kernel M K 0 (by omega)])
  rcases eq_or_lt_of_le hm0 with h | h
  · have := hinc 0 1 (by omega) (by decide) hM
    omega
  · have := hdec 0 1 (le_refl _) (by decide) (by omega)
    omega

/-! ## Termination of the narrowing loop -/

/-- One iteration on a bracket of width above 2: the probes written with `/`. -/
theorem narrow_iter_eq (time : Int → Int) (left right : Int) (hw : right - left > 2) :
    narrow_iter time (left, right) =
      if time (left + (right - left) / 3) ≤ time (right - (right - left) / 3)
      then (left, right - (right - left) / 3)
      else (left + (right - left) / 3, right) := by
  unfold narrow_iter
  simp only [tdiv_three (right - left) (by omega)]

/-- While the guard `right - left > 2` holds, the loop continues from the bracket that
one iteration produces. -/
theorem narrow_eq_narrow_iter (time : Int → Int) (left right : Int) (hw : right - left > 2) :
    narrow time left right
      = narrow time (narrow_iter time (left, right)).1 (narrow_iter time (left, right)).2 := by
  rw [narrow_step time left right hw, narrow_iter_eq time left right hw]
  split <;> rfl

/-- One iteration on a bracket of width `w > 2` gives a sub-bracket of width
`w - w / 3 < w`. -/
theorem narrow_iter_width (time : Int → Int) (left right : Int) (hw : right - left > 2) :
    left ≤ (narrow_iter time (left, right)).1 ∧
      (narrow_iter time (left, right)).2 ≤ right ∧
      (narrow_iter time (left, right)).2 - (narrow_iter time (left, right)).1
        = (right - left) - (right - left) / 3 ∧
      (narrow_iter time (left, right)).2 - (narrow_iter time (left, right)).1
        < right - left := by
  rw [narrow_iter_eq time left right hw]
  split <;> simp only <;> omega

/-- From a bracket of width at least 2 the loop exits on a bracket of width exactly 2. -/
theorem narrow_exit_width (time : Int → Int) (n : Nat) :
    ∀ left right : Int, 2 ≤ right - left → (right - left).toNat ≤ n →
      (narrow time left right).2 - (narrow time left right).1 = 2 := by
  induction n with
  | zero =>
    intro left right h hn
    omega
  | succ n ih =>
    intro left right h hn
    by_cases hw : right - left > 2
    · rw [narrow_step time left right hw]
      split
      · exact ih left (right - (right - left) / 3) (by omega) (by omega)
      · exact ih (left + (right - left) / 3) right (by omega) (by omega)
    · rw [narrow_stop time left right hw]
      simp only
      omega

/-- The loop result is reached by at most `n` iterations of the loop body from a bracket
of width at most `n`. -/
theorem narrow_eq_iterate (time : Int → Int) (n : Nat) :
    ∀ left right : Int, (right - left).toNat ≤ n →
      ∃ k : Nat, k ≤ n ∧ (narrow_iter time)^[k] (left, right) = narrow time left right := by
  induction n with
  | zero =>
    intro left right hn
    exact ⟨0, le_refl _, by rw [narrow_stop time left right (by omega)]; rfl⟩
  | succ n ih =>
    intro left right hn
    by_cases hw : right - left > 2
    · have hwid := narrow_iter_width time left right hw
      obtain ⟨k, hk, hiter⟩ := ih (narrow_iter time (left, right)).1
        (narrow_iter time (left, right)).2 (by omega)
      refine ⟨k + 1, by omega, ?_⟩
      rw [Function.iterate_succ_apply, narrow_eq_narrow_iter time left right hw, ← hiter]
    · exact ⟨0, Nat.zero_le _, by rw [narrow_stop time left right hw]; rfl⟩

/-- C19: the narrowing loop terminates for every `M ≥ 100`. Each iteration on a bracket
of width `w > 2` yields a sub-bracket of width exactly `w - w / 3 < w` from which the loop
continues; the result on `[0, M]` is reached after at most `M` iterations of the loop
body, and it satisfies `0 ≤ left < right ≤ M` and `right - left = 2`. -/
theorem narrow_terminates (time : Int → Int) (M : Int) (hM : 100 ≤ M) :
    (∀ left right : Int, right - left > 2 →
      left ≤ (narrow_iter time (left, right)).1 ∧
      (narrow_iter time (left, right)).2 ≤ right ∧
      (narrow_iter time (left, right)).2 - (narrow_iter time (left, right)).1
        = (right - left) - (right - left) / 3 ∧
      (narrow_iter time (left, right)).2 - (narrow_iter time (left, right)).1
        < right - left ∧
      narrow time left right
        = narrow time (narrow_iter time (left, right)).1 (narrow_iter time (left, right)).2) ∧
    (∃ k : Nat, k ≤ M.toNat ∧ (narrow_iter time)^[k] (0, M) = narrow time 0 M) ∧
    0 ≤ (narrow time 0 M).1 ∧ (narrow time 0 M).1 < (narrow time 0 M).2 ∧
    (narrow time 0 M).2 ≤ M ∧ (narrow time 0 M).2 - (narrow time 0 M).1 = 2 := by
  have hb := narrow_bounds time M.toNat 0 M (by omega) (by omega)
  have hx := narrow_exit_width time M.toNat 0 M (by omega) (by omega)
  refine ⟨?_, narrow_eq_iterate time M.toNat 0 M (by omega), hb.1, by omega, hb.2.2.1, hx⟩
  intro left right hw
  obtain ⟨h1, h2, h3, h4⟩ := narrow_iter_width time left right hw
  exact ⟨h1, h2, h3, h4, narrow_eq_narrow_iter time left right hw⟩

/-- Witness of C19 at the large test input `M = 1000, N = 1000, K = 5, cpu_ops = 500,
gpu_ops = 2000, bandwidth = 100`. -/
theorem narrow_terminates_witness :
    (100 : Int) ≤ 1000 ∧
    (∃ k : Nat, k ≤ (1000 : Int).toNat ∧
      (narrow_iter (estimate_exec_time 1000 1000 5 500 2000 100))^[k] (0, 1000)
        = narrow (estimate_exec_time 1000 1000 5 500 2000 100) 0 1000) ∧
    (narrow (estimate_exec_time 1000 1000 5 500 2000 100) 0 1000).2
      - (narrow (estimate_exec_time 1000 1000 5 500 2000 100) 0 1000).1 = 2 :=
  ⟨by decide,
    (narrow_terminates (estimate_exec_time 1000 1000 5 500 2000 100) 1000 (by decide)).2.1,
    (narrow_terminates (estimate_exec_time 1000 1000 5 500 2000 100) 1000
      (by decide)).2.2.2.2.2⟩

/-! ## Degenerate geometry -/

/-- With positive inputs, a non-positive CPU operation count, no GPU operation and no GPU
output byte, the estimate is the ceiling of the transfer-in time alone. -/
theorem estimate_exec_time_of_no_work (M N K cpu_ops gpu_ops bandwidth rows : Int)
    (hM : 0 < M) (hN : 0 < N) (hK : 0 < K) (hc : 0 < cpu_ops) (hb : 0 < bandwidth)
    (hgpu : gpu_positions M N K rows = 0) (hcpu : cpu_positions M N K rows ≤ 0) :
    estimate_exec_time M N K cpu_ops gpu_ops bandwidth rows
      = ⌈transfer_to_gpu_time M N K bandwidth rows⌉ := by
  have hcq : (0 : ℚ) < (cpu_ops : ℚ) := by exact_mod_cast hc
  have hbq : (0 : ℚ) < (bandwidth : ℚ) := by exact_mod_cast hb
  have hg : gpu_total_time M N K gpu_ops bandwidth rows
      = transfer_to_gpu_time M N K bandwidth rows := by
    unfold gpu_total_time gpu_compute_time transfer_from_gpu_time gpu_total_ops
      gpu_output_data_size
    rw [hgpu]
    simp
  have hin : 0 ≤ transfer_to_gpu_time M N K bandwidth rows := by
    unfold transfer_to_gpu_time
    apply div_nonneg _ (le_of_lt hbq)
    have : 0 ≤ gpu_input_data_size M N K rows := by
      unfold gpu_input_data_size data_size
      exact mul_nonneg (mul_nonneg (rows_to_transfer_nonneg M K rows hM hK) (le_of_lt hN))
        (by decide)
    exact_mod_cast this
  have hct : cpu_time M N K cpu_ops rows ≤ 0 := by
    unfold cpu_time
    apply div_nonpos_of_nonpos_of_nonneg _ (le_of_lt hcq)
    have : cpu_total_ops M N K rows ≤ 0 := by
      unfold cpu_total_ops
      exact mul_nonpos_of_nonpos_of_nonneg hcpu (le_of_lt (ops_per_position_pos K hK))
    exact_mod_cast this
  unfold estimate_exec_time
  rw [hg, max_eq_right (le_trans hct hin)]

/-- In degenerate geometry with a non-negative output width or a zero output height, no
GPU position exists and the CPU position count is not positive. -/
theorem degenerate_positions (M N K rows : Int)
    (hdeg : M < K ∨ N < K) (hgeo : K ≤ N + 1 ∨ M + 1 = K) :
    gpu_positions M N K rows = 0 ∧ cpu_positions M N K rows ≤ 0 := by
  unfold cpu_positions total_output_positions gpu_positions
  by_cases hMK : M < K
  · rw [gpu_output_rows_of_lt M K rows hMK]
    refine ⟨by simp, ?_⟩
    simp only [zero_mul, sub_zero]
    rcases hgeo with h | h
    · exact mul_nonpos_of_nonpos_of_nonneg (by unfold output_height; omega)
        (by unfold output_width; omega)
    · have : output_height M K = 0 := by unfold output_height; omega
      rw [this]
      simp
  · have hW : output_width N K = 0 := by
      unfold output_width
      omega
    rw [hW]
    simp

/-- C14 (counterexample): at the degenerate input `M = 1, N = 1, K = 10, gpu_ops = 1,
bandwidth = 1, rows = 0` the code counts `12736` CPU operations, and the estimate is
`12736` with `cpu_ops = 1` but `6368` with `cpu_ops = 2`. -/
theorem estimate_exec_time_degenerate_depends_on_cpu_ops :
    cpu_total_ops 1 1 10 0 = 12736 ∧
      estimate_exec_time 1 1 10 1 1 1 0 = 12736 ∧ estimate_exec_time 1 1 10 2 1 1 0 = 6368 ∧
      ¬ (estimate_exec_time 1 1 10 1 1 1 0 = estimate_exec_time 1 1 10 2 1 1 0) := by
  have h1 : estimate_exec_time 1 1 10 1 1 1 0 = 12736 := by
    rw [estimate_exec_time_eq_int _ _ _ _ _ _ _ (by decide) (by decide) (by decide)]
    decide
  have h2 : estimate_exec_time 1 1 10 2 1 1 0 = 6368 := by
    rw [estimate_exec_time_eq_int _ _ _ _ _ _ _ (by decide) (by decide) (by decide)]
    decide
  rw [h1, h2]
  exact ⟨by decide, rfl, rfl, by decide⟩

/-- C14 (amended): for positive inputs in degenerate geometry (`M < K` or `N < K`) with a
non-negative output width (`N ≥ K - 1`) or a zero output height (`M = K - 1`), and any
integer `rows`, the estimate is the same for all positive `cpu_ops` and `gpu_ops`. -/
theorem estimate_exec_time_degenerate_independent
    (M N K bandwidth rows cpu_ops1 gpu_ops1 cpu_ops2 gpu_ops2 : Int)
    (hM : 0 < M) (hN : 0 < N) (hK : 0 < K) (hb : 0 < bandwidth)
    (hc1 : 0 < cpu_ops1) (_hg1 : 0 < gpu_ops1) (hc2 : 0 < cpu_ops2) (_hg2 : 0 < gpu_ops2)
    (hdeg : M < K ∨ N < K) (hgeo : K ≤ N + 1 ∨ M + 1 = K) :
    estimate_exec_time M N K cpu_ops1 gpu_ops1 bandwidth rows
      = estimate_exec_time M N K cpu_ops2 gpu_ops2 bandwidth rows := by
  obtain ⟨hgpu, hcpu⟩ := degenerate_positions M N K rows hdeg hgeo
  rw [estimate_exec_time_of_no_work M N K cpu_ops1 gpu_ops1 bandwidth rows hM hN hK hc1 hb
      hgpu hcpu,
    estimate_exec_time_of_no_work M N K cpu_ops2 gpu_ops2 bandwidth rows hM hN hK hc2 hb
      hgpu hcpu]

/-- Witness of C14 (amended) at the degenerate test input `M = 2, N = 10, K = 3,
bandwidth = 50, rows = 5`, with `cpu_ops, gpu_ops` changed from `100, 200` to `7, 9`. -/
theorem estimate_exec_time_degenerate_independent_witness :
    estimate_exec_time 2 10 3 100 200 50 5 = estimate_exec_time 2 10 3 7 9 50 5 :=
  estimate_exec_time_degenerate_independent 2 10 3 50 5 100 200 7 9 (by decide) (by decide)
    (by decide) (by decide) (by decide) (by decide) (by decide) (by decide)
    (Or.inl (by decide)) (Or.inl (by decide))

/-! ## The cost model with 32-bit and 64-bit wrap-around -/

/-- The exact cost model is `estimate_from_counts` on the exact counts. -/
theorem estimate_exec_time_eq_from_counts (M N K cpu_ops gpu_ops bandwidth rows : Int) :
    estimate_exec_time M N K cpu_ops gpu_ops bandwidth rows
      = estimate_from_counts (cpu_total_ops M N K rows) (gpu_total_ops M N K rows)
          (gpu_input_data_size M N K rows) (gpu_output_data_size M N K rows)
          cpu_ops gpu_ops bandwidth := rfl

/-- For positive throughputs `estimate_from_counts` is a maximum of two integer ceiling
divisions. -/
theorem estimate_from_counts_eq_int (a g i o cpu_ops gpu_ops bandwidth : Int)
    (hc : 0 < cpu_ops) (hg : 0 < gpu_ops) (hb : 0 < bandwidth) :
    estimate_from_counts a g i o cpu_ops gpu_ops bandwidth
      = max (ceil_div a cpu_ops) (ceil_div ((i + o) * gpu_ops + g * bandwidth)
          (bandwidth * gpu_ops)) := by
  unfold estimate_from_counts
  rw [(Int.ceil_mono (α := ℚ)).map_max]
  have hgq : (gpu_ops : ℚ) ≠ 0 := by exact_mod_cast hg.ne'
  have hbq : (bandwidth : ℚ) ≠ 0 := by exact_mod_cast hb.ne'
  have hsum : (i : ℚ) / (bandwidth : ℚ) + (g : ℚ) / (gpu_ops : ℚ) + (o : ℚ) / (bandwidth : ℚ)
      = (((i + o) * gpu_ops + g * bandwidth : Int) : ℚ) / ((bandwidth * gpu_ops : Int) : ℚ) := by
    push_cast
    field_simp
    ring
  rw [hsum, ceil_intCast_div _ _ (Int.mul_pos hb hg), ceil_intCast_div _ _ hc]

/-- C13 (failing input): at `M = N = 30000, K = 1, rows = 30000, cpu_ops = gpu_ops =
bandwidth = 10` all inputs are 32-bit values and the exact estimate `810000000` fits
`int`, but both byte counts are `3600000000` exactly and `-694967296` with the widths the
code declares, and the estimate computed with these widths is `0`. -/
theorem estimate_exec_time_wrapped_differs :
    estimate_exec_time 30000 30000 1 10 10 10 30000 = 810000000 ∧
      estimate_exec_time 30000 30000 1 10 10 10 30000 ≤ INT_MAX ∧
      gpu_input_data_size 30000 30000 1 30000 = 3600000000 ∧
      gpu_input_data_size_wrapped 30000 30000 1 30000 = -694967296 ∧
      gpu_output_data_size 30000 30000 1 30000 = 3600000000 ∧
      gpu_output_data_size_wrapped 30000 30000 1 30000 = -694967296 ∧
      estimate_exec_time_wrapped 30000 30000 1 10 10 10 30000 = 0 := by
  have h1 : estimate_exec_time 30000 30000 1 10 10 10 30000 = 810000000 := by
    rw [estimate_exec_time_eq_int _ _ _ _ _ _ _ (by decide) (by decide) (by decide)]
    decide
  have h2 : estimate_exec_time_wrapped 30000 30000 1 10 10 10 30000 = 0 := by
    unfold estimate_exec_time_wrapped
    rw [estimate_from_counts_eq_int _ _ _ _ _ _ _ (by decide) (by decide) (by decide)]
    decide
  rw [h1, h2]
  exact ⟨rfl, by decide, by decide, by decide, by decide, by decide, rfl⟩

end Conv
